import Mathlib

/-!
Verification development for the InvenTree plugin registry
(`InvenTree/plugin/registry.py`).

The registry is embedded shallowly: the process-wide `PluginsRegistry`
instance becomes an explicit `RegState` record, the host application
(persisted `PluginConfig` store, task scheduler, `settings.INSTALLED_APPS`,
maintenance mode) becomes a `Host` record, and every lifecycle method of the
registry becomes a function threading those records.  Python exceptions that
the source raises and catches (`IntegrationPluginError`) become `Except`
values carrying the offending module path together with the state at the
point of the raise, since mutations made before a raise persist.
-/

namespace InvenTreePlugin

/-! ## Association-list helpers (Python `dict` with insertion order) -/

/-- `d[k] = v` on a Python dict: overwrite in place if the key exists,
append otherwise (insertion order preserved). -/
def dictInsert {α : Type} (k : String) (v : α) : List (String × α) → List (String × α)
  | [] => [(k, v)]
  | (k', v') :: rest =>
    if k' = k then (k, v) :: rest else (k', v') :: dictInsert k v rest

/-- The key list of a dict. -/
def dictKeys {α : Type} (d : List (String × α)) : List String :=
  d.map Prod.fst

/-- Dict lookup. -/
def dictLookup {α : Type} (k : String) : List (String × α) → Option α
  | [] => none
  | (k', v) :: rest => if k' = k then some v else dictLookup k rest

/-- Simplified model of `django.utils.text.slugify` (an external helper):
lowercase the alphanumeric characters, turn separators into hyphens, drop
everything else.  The claims never depend on the finer points of Django's
normalisation (collapsing repeated hyphens, stripping ends). -/
def slugifyChar (c : Char) : String :=
  if c.isAlphanum then (Char.toLower c).toString
  else if c = ' ' ∨ c = '-' ∨ c = '_' then "-"
  else ""

/-- Simplified model of `django.utils.text.slugify`. -/
def slugify (s : String) : String :=
  String.join (s.toList.map slugifyChar)

/-! ## Data model -/

/-- A discovered plugin class, read without instantiation: only declared
attributes (`PLUGIN_NAME`, `PLUGIN_SLUG`, mixin flags, module identity) plus
the behavioural facts the claims quantify over (whether instantiating the
class raises, whether importing its app during an app reload raises). -/
structure PluginModule where
  /-- `PLUGIN_NAME` attribute. -/
  pluginName : String
  /-- `PLUGIN_SLUG` attribute, optional. -/
  pluginSlug : Option String
  /-- `is_package` attribute (set for entry-point plugins). -/
  isPackage : Bool
  /-- `__module__` of the class. -/
  modName : String
  /-- `__name__` of the class. -/
  clsName : String
  /-- The dotted app path `_get_plugin_path` derives for a local plugin
  (the `'.'.join(...relative_to(BASE_DIR).parts)` result). -/
  path : String
  /-- Whether `plugin()` (instantiation) raises. -/
  failsInit : Bool
  /-- Whether importing this plugin's app during `apps.populate` raises. -/
  failsActivation : Bool
  /-- `SettingsMixin` present. -/
  hasSettings : Bool
  /-- The keys of the `settings` dict the plugin contributes. -/
  settingsKeys : List String
  /-- `ScheduleMixin` present. -/
  hasSchedule : Bool
  /-- Declared scheduled-task names. -/
  taskNames : List String
  /-- `AppMixin` present. -/
  hasApp : Bool
deriving Repr, DecidableEq

/-- The persisted `PluginConfig` row: `key` (unique slug), `name`,
`active` flag. -/
structure PluginConfig where
  key : String
  name : String
  active : Bool
deriving Repr, DecidableEq

/-- Modelled from the spec: the live `PluginInstance`
(`IntegrationPluginBase` is not under src/) exposes a `slug` — the
normalized key derived from the declared slug or name — and carries the
`is_package` marker copied back by `_init_plugins`. -/
structure PluginInstance where
  mod : PluginModule
  slug : String
  isPackage : Bool
deriving Repr, DecidableEq

/-- Host-application state touched by the registry. -/
structure Host where
  /-- The persisted `PluginConfig` table. -/
  configStore : List PluginConfig
  /-- Names of the scheduled tasks known to the task scheduler
  (`django_q.models.Schedule`). -/
  schedules : List String
  /-- `settings.INSTALLED_APPS`. -/
  installedApps : List String
  /-- `settings.INTEGRATION_APPS_LOADED`. -/
  integrationAppsLoaded : Bool
  /-- Maintenance mode flag (`get_maintenance_mode`/`set_maintenance_mode`). -/
  maintenance : Bool
deriving Repr, DecidableEq

/-- A discovery source from `settings.PLUGIN_DIRS`: a module path to import,
whether the import succeeds, and the plugin classes found in it. -/
structure DirSource where
  modName : String
  importOk : Bool
  found : List PluginModule
deriving Repr, DecidableEq

/-- A package entry point advertised under `inventree_plugins`. -/
structure EntryPoint where
  epName : String
  loadOk : Bool
  plugin : PluginModule
deriving Repr, DecidableEq

/-- The Django settings and `InvenTreeSetting` values the registry reads. -/
structure Env where
  /-- `settings.PLUGIN_RETRY`. -/
  pluginRetry : Nat
  /-- `settings.PLUGIN_TESTING`. -/
  pluginTesting : Bool
  /-- `settings.PLUGIN_TESTING_SETUP`. -/
  pluginTestingSetup : Bool
  /-- `InvenTreeSetting` `ENABLE_PLUGINS_SCHEDULE`. -/
  enablePluginsSchedule : Bool
  /-- `InvenTreeSetting` `ENABLE_PLUGINS_APP`. -/
  enablePluginsApp : Bool
  /-- `settings.PLUGIN_DIRS`. -/
  pluginDirs : List DirSource
  /-- The `inventree_plugins` entry points. -/
  entryPoints : List EntryPoint
deriving Repr, DecidableEq

/-- The mutable fields of the process-wide `PluginsRegistry` instance. -/
structure RegState where
  /-- `self.plugins`: slug → activated instance. -/
  plugins : List (String × PluginInstance)
  /-- `self.plugins_inactive`: slug → persisted config (possibly `None`). -/
  plugins_inactive : List (String × Option PluginConfig)
  /-- `self.plugin_modules`: the discovered plugin classes. -/
  plugin_modules : List PluginModule
  /-- `self.errors`: offending source → log phase of the most recent error. -/
  errors : List (String × String)
  /-- `self.is_loading`. -/
  is_loading : Bool
  /-- `self.apps_loading`. -/
  apps_loading : Bool
  /-- `self.installed_apps`: plugin app paths added to the host. -/
  installed_apps : List String
  /-- `self.mixins_settings`: slug → contributed setting keys. -/
  mixins_settings : List (String × List String)
deriving Repr, DecidableEq

/-- `PluginsRegistry.__init__`. -/
def initialRegState : RegState :=
  { plugins := [], plugins_inactive := [], plugin_modules := [], errors := [],
    is_loading := false, apps_loading := true, installed_apps := [],
    mixins_settings := [] }

/-! ## Config store operations -/

/-- The `get_or_create(key=..., name=...)` lookup: the first row matching
both fields. -/
def findConfig (key name : String) : List PluginConfig → Option PluginConfig
  | [] => none
  | c :: rest =>
    if c.key = key ∧ c.name = name then some c else findConfig key name rest

/-- Modelled from the spec: `PluginConfig.objects.get_or_create(key, name)`
(the `PluginConfig` model is not under src/) — look the row up by `key` and
`name`, creating it when absent; a newly created config starts inactive
("the registry filters by persisted enable flag", admins toggle activation). -/
def getOrCreate (key name : String) (store : List PluginConfig) :
    PluginConfig × List PluginConfig :=
  match findConfig key name store with
  | some c => (c, store)
  | none =>
    let c : PluginConfig := ⟨key, name, false⟩
    (c, store ++ [c])

/-- Modelled from the spec: `plugin_db_setting.save(...)` persists the mutated
row — replace the store rows matching the config's key and name. -/
def saveConfig (c : PluginConfig) (store : List PluginConfig) : List PluginConfig :=
  store.map (fun c' => if c'.key = c.key ∧ c'.name = c.name then c else c')

/-- Modelled from the spec: `plugin.plugin_config()` looks the persisted
config up by the plugin's key. -/
def configByKey (key : String) : List PluginConfig → Option PluginConfig
  | [] => none
  | c :: rest => if c.key = key then some c else configByKey key rest

/-! ## `_init_plugins` -/

/-- The slug key derived in `_init_plugins`:
`slugify(PLUGIN_SLUG if set else PLUGIN_NAME)`. -/
def plugKey (p : PluginModule) : String :=
  slugify (p.pluginSlug.getD p.pluginName)

/-- Modelled from the spec: the `IntegrationPluginError` raised by
`get_plugin_error` (`plugin/helpers.py` is not under src/) carries the
offending module path. -/
def errorPath (p : PluginModule) : String :=
  p.modName

/-- The blocked-plugin test of `_init_plugins`:
`plugin.__name__ == disabled or plugin.__module__ == disabled`. -/
def blockedMatches (d : String) (p : PluginModule) : Bool :=
  p.clsName = d || p.modName = d

/-- Instantiation `plugin = plugin(); plugin.is_package = was_packaged`.
The instance slug equals the derived key (see `PluginInstance`). -/
def mkInstance (p : PluginModule) : PluginInstance :=
  ⟨p, plugKey p, p.isPackage⟩

/-- The attempt to instantiate one enabled, unblocked plugin: on failure the
error (with the state at the raise, including the logged error) propagates;
on success the instance is stored under its slug. -/
def initAttempt (p : PluginModule) (st : RegState) (host : Host) :
    Except (String × RegState × Host) (RegState × Host) :=
  if p.failsInit then
    .error (errorPath p,
      { st with errors := dictInsert (errorPath p) "init" st.errors }, host)
  else
    .ok ({ st with plugins := dictInsert (plugKey p) (mkInstance p) st.plugins }, host)

/-- One iteration of the `_init_plugins` loop for plugin class `p`. -/
def initOne (env : Env) (disabled : Option String) (p : PluginModule)
    (st : RegState) (host : Host) :
    Except (String × RegState × Host) (RegState × Host) :=
  let key := plugKey p
  let (cfg, store1) := getOrCreate key p.pluginName host.configStore
  let host1 := { host with configStore := store1 }
  if env.pluginTesting || cfg.active then
    match disabled with
    | some d =>
      if blockedMatches d p then
        -- quarantine: persist `active = False` unless testing,
        -- record the config in the inactive map, skip the plugin
        if env.pluginTesting then
          .ok ({ st with plugins_inactive := dictInsert key (some cfg) st.plugins_inactive },
            host1)
        else
          let cfg2 := { cfg with active := false }
          .ok ({ st with plugins_inactive := dictInsert key (some cfg2) st.plugins_inactive },
            { host1 with configStore := saveConfig cfg2 store1 })
      else
        initAttempt p st host1
    | none => initAttempt p st host1
  else
    .ok ({ st with plugins_inactive := dictInsert key (some cfg) st.plugins_inactive },
      host1)

/-- The `_init_plugins` loop over a list of discovered plugin classes. -/
def initPlugins (env : Env) (disabled : Option String) :
    List PluginModule → RegState → Host →
    Except (String × RegState × Host) (RegState × Host)
  | [], st, host => .ok (st, host)
  | p :: rest, st, host =>
    match initOne env disabled p st host with
    | .error e => .error e
    | .ok (st', host') => initPlugins env disabled rest st' host'

/-- `PluginsRegistry._init_plugins(disabled)`. -/
def initPluginsAll (env : Env) (disabled : Option String)
    (st : RegState) (host : Host) :
    Except (String × RegState × Host) (RegState × Host) :=
  initPlugins env disabled st.plugin_modules st host

/-! ## Capability activation -/

/-- `activate_integration_settings`: rebuild `mixins_settings` from scratch,
one entry per active plugin exposing the settings mixin. -/
def activateSettings (st : RegState) : RegState :=
  { st with mixins_settings :=
      (st.plugins.foldl
        (fun acc sp =>
          if sp.2.mod.hasSettings then dictInsert sp.1 sp.2.mod.settingsKeys acc
          else acc)
        []) }

/-- Modelled from the spec: `ScheduleMixin.register_tasks` /
`get_task_names` (not under src/) register exactly the declared task names,
prefixed for the plugin system (`plugin.<slug>.<name>`). -/
def taskKeysOf (pl : PluginInstance) : List String :=
  pl.mod.taskNames.map (fun n => "plugin." ++ pl.slug ++ "." ++ n)

/-- Boolean prefix test on character lists. -/
def isPrefixOfList : List Char → List Char → Bool
  | [], _ => true
  | _ :: _, [] => false
  | a :: as, b :: bs => a = b && isPrefixOfList as bs

/-- The `name__istartswith="plugin."` filter (case-insensitive prefix). -/
def istartswithPluginDot (s : String) : Bool :=
  isPrefixOfList "plugin.".data (s.data.map Char.toLower)

/-- One step of the schedule-registration loop: for a schedule-mixin plugin
whose looked-up config is active, register its task names with the scheduler
and append them to `task_keys`. -/
def schedFoldStep (acc : List String × Host) (sp : String × PluginInstance) :
    List String × Host :=
  let pl := sp.2
  if pl.mod.hasSchedule then
    match configByKey pl.slug acc.2.configStore with
    | some cfg =>
      if cfg.active then
        (acc.1 ++ taskKeysOf pl,
         { acc.2 with schedules :=
             (acc.2.schedules ++
               (taskKeysOf pl).filter (fun n => !acc.2.schedules.contains n)) })
      else acc
    | none => acc
  else acc

/-- The registration half of `activate_integration_schedule`: when scheduling
is enabled (or testing), register the tasks of each active schedule-mixin
plugin whose persisted config is active, collecting the registered names
(`task_keys`). -/
def scheduleRegistration (env : Env) (st : RegState) (host : Host) :
    List String × Host :=
  if env.pluginTesting || env.enablePluginsSchedule then
    st.plugins.foldl schedFoldStep ([], host)
  else ([], host)

/-- `activate_integration_schedule`: the registration half, then —
unconditionally — delete every scheduled task whose name matches `plugin.`
(case-insensitive prefix) but is not among the freshly registered names. -/
def activateSchedule (env : Env) (st : RegState) (host : Host) : Host :=
  let regStep := scheduleRegistration env st host
  let taskKeys := regStep.1
  let host1 := regStep.2
  { host1 with schedules :=
      (host1.schedules.filter
        (fun n => !istartswithPluginDot n || taskKeys.contains n)) }

/-- `_get_plugin_path`: the dotted path relative to `BASE_DIR` for a local
plugin, the plugin name for a packaged one (the source distinguishes the two
by whether `relative_to` raises `ValueError`). -/
def getPluginPath (pl : PluginInstance) : String :=
  if pl.isPackage then pl.mod.pluginName else pl.mod.path

/-- Modelled from the spec: during an app reload, `apps.populate` importing a
broken plugin app raises, and `_try_reload`'s `get_plugin_error`
(`plugin/helpers.py` is not under src/) re-raises an
`IntegrationPluginError` carrying the offending module path.  The first
activated app-mixin plugin whose app import fails, if any. -/
def firstFailing : List (String × PluginInstance) → Option String
  | [] => none
  | sp :: rest =>
    if sp.2.mod.hasApp && sp.2.mod.failsActivation then some (errorPath sp.2.mod)
    else firstFailing rest

/-- The first failing app among the activated plugins. -/
def firstFailingApp (st : RegState) : Option String :=
  firstFailing st.plugins

/-- `_reload_apps` (plus `_try_reload`): sets `is_loading` before the reload
and clears it after; a failing plugin app import raises out of the reload,
leaving `is_loading` set. -/
def reloadApps (st : RegState) : Except (String × RegState) RegState :=
  let st1 := { st with is_loading := true }
  match firstFailingApp st1 with
  | some path => .error (path, st1)
  | none => .ok { st1 with is_loading := false }

/-- One step of the `INSTALLED_APPS` loop of `activate_integration_app`:
append the app path of an app-mixin plugin that is not yet installed to
`settings.INSTALLED_APPS` and to the registry's `installed_apps`, flagging
the change. -/
def appFoldStep (acc : RegState × Host × Bool) (sp : String × PluginInstance) :
    RegState × Host × Bool :=
  if sp.2.mod.hasApp then
    let path := getPluginPath sp.2
    if acc.2.1.installedApps.contains path then acc
    else
      ({ acc.1 with installed_apps := acc.1.installed_apps ++ [path] },
       { acc.2.1 with installedApps := acc.2.1.installedApps ++ [path] },
       true)
  else acc

/-- `activate_integration_app`: when the app mixin is enabled (or testing),
append the app path of every active app-mixin plugin that is not yet
installed to `settings.INSTALLED_APPS` and to the registry's
`installed_apps`; if anything changed or a reload was forced, reload the
host app registry (`_reregister_contrib_apps` and `_update_urls` touch only
Django state outside this model). -/
def activateApp (env : Env) (forceReload : Bool) (st : RegState) (host : Host) :
    Except (String × RegState × Host) (RegState × Host) :=
  if env.pluginTesting || env.enablePluginsApp then
    let step := st.plugins.foldl appFoldStep (st, host, false)
    let st1 := step.1
    let host1 := step.2.1
    let appsChanged := step.2.2
    if appsChanged || forceReload then
      let st2 := if st1.apps_loading || forceReload
        then { st1 with apps_loading := false }
        else st1
      match reloadApps st2 with
      | .error (path, stE) => .error (path, stE, host1)
      | .ok st3 => .ok (st3, host1)
    else
      .ok (st1, host1)
  else
    .ok (st, host)

/-- `_activate_plugins(force_reload)`: settings, then schedule, then app. -/
def activatePlugins (env : Env) (forceReload : Bool) (st : RegState) (host : Host) :
    Except (String × RegState × Host) (RegState × Host) :=
  let st1 := activateSettings st
  let host1 := activateSchedule env st1 host
  activateApp env forceReload st1 host1

/-! ## Cleanup helpers -/

/-- `_clean_registry`: drop both plugin maps. -/
def cleanRegistry (st : RegState) : RegState :=
  { st with plugins := [], plugins_inactive := [] }

/-- `_clean_installed_apps`: remove the registry's plugin app paths from
`settings.INSTALLED_APPS`, then clear the registry's list. -/
def cleanInstalledApps (st : RegState) (host : Host) : RegState × Host :=
  ({ st with installed_apps := [] },
   { host with installedApps :=
       host.installedApps.filter (fun a => !st.installed_apps.contains a) })

/-! ## `load_plugins` -/

/-- One pass of the `load_plugins` retry loop:
`_init_plugins(blocked)` then `_activate_plugins()`. -/
def loadPass (env : Env) (blocked : Option String) (st : RegState) (host : Host) :
    Except (String × RegState × Host) (RegState × Host) :=
  match initPluginsAll env blocked st host with
  | .error e => .error e
  | .ok (st1, host1) => activatePlugins env false st1 host1

/-- The body of the `except IntegrationPluginError` handler: log the error
(`log_plugin_error({path: message}, 'load')`, modelled as an entry in
`errors`), clean the registry and the installed apps, and re-activate with
`force_reload=True` on the now-empty plugin map.  An exception raised here
is not caught and propagates out of `load_plugins`. -/
def afterFailure (env : Env) (path : String) (st : RegState) (host : Host) :
    Except (String × RegState × Host) (RegState × Host) :=
  let st1 := cleanRegistry { st with errors := dictInsert path "load" st.errors }
  let p := cleanInstalledApps st1 host
  activatePlugins env true p.1 p.2

/-- What a finished `load_plugins` run reports: the result (an `error` is an
exception escaping to the caller), the number of failing passes, and whether
the bounded retry counter was exhausted (`retry_counter <= 0` break). -/
structure LoadOutcome where
  result : Except (String × RegState × Host) (RegState × Host)
  failures : Nat
  exhausted : Bool
deriving Repr

/-- One iteration of the `while not registered_sucessfull` loop: run a pass;
on success (`inl` with a finished outcome) the loop ends, on a handled
failure (`inr`) the loop may retry with the failing path blocked.  A handler
exception also ends the loop, escaping to the caller. -/
def loadOnce (env : Env) (blocked : Option String) (st : RegState) (host : Host) :
    LoadOutcome ⊕ (String × RegState × Host) :=
  match loadPass env blocked st host with
  | .ok out => .inl ⟨.ok out, 0, false⟩
  | .error (path, stE, hostE) =>
    match afterFailure env path stE hostE with
    | .error e => .inl ⟨.error e, 1, false⟩
    | .ok p => .inr (path, p.1, p.2)

/-- The `while not registered_sucessfull` loop of `load_plugins`, recursing
on the retry counter.  After a failure the counter is decremented and the
loop breaks when it reaches zero; counter values `0` and `1` therefore both
break after one failure, matching `retry_counter -= 1;
if retry_counter <= 0: break`. -/
def loadLoop (env : Env) : Nat → Option String → RegState → Host → LoadOutcome
  | 0, b, st, h =>
    match loadOnce env b st h with
    | .inl out => out
    | .inr p => ⟨.ok (p.2.1, p.2.2), 1, true⟩
  | 1, b, st, h =>
    match loadOnce env b st h with
    | .inl out => out
    | .inr p => ⟨.ok (p.2.1, p.2.2), 1, true⟩
  | c + 2, b, st, h =>
    match loadOnce env b st h with
    | .inl out => out
    | .inr p =>
      let rest := loadLoop env (c + 1) (some p.1) p.2.1 p.2.2
      ⟨rest.result, rest.failures + 1, rest.exhausted⟩

/-- `PluginsRegistry.load_plugins`: set maintenance mode if it was not
already on, run the retry loop with `retry_counter = settings.PLUGIN_RETRY`,
and on normal completion reset maintenance mode if this call had set it (an
escaping exception skips the reset). -/
def loadPlugins (env : Env) (st : RegState) (host : Host) : LoadOutcome :=
  let m := host.maintenance
  let host1 := if m then host else { host with maintenance := true }
  let out := loadLoop env env.pluginRetry none st host1
  match out.result with
  | .ok (st', h') =>
    { out with result := .ok (st', if m then h' else { h' with maintenance := false }) }
  | .error _ => out

/-! ## `unload_plugins`, `reload_plugins` -/

/-- `deactivate_integration_app`: the admin/model de-registrations touch only
Django state; on the modelled state it removes the plugin app paths, resets
`INTEGRATION_APPS_LOADED`, reloads the app registry, and rebuilds URLs. -/
def deactivateApp (st : RegState) (host : Host) :
    Except (String × RegState × Host) (RegState × Host) :=
  let p := cleanInstalledApps st host
  let host2 := { p.2 with integrationAppsLoaded := false }
  match reloadApps p.1 with
  | .error (path, stE) => .error (path, stE, host2)
  | .ok st2 => .ok (st2, host2)

/-- `_deactivate_plugins`: app teardown, then the schedule teardown (whose
body is `pass`), then dropping the settings contributions. -/
def deactivatePlugins (st : RegState) (host : Host) :
    Except (String × RegState × Host) (RegState × Host) :=
  match deactivateApp st host with
  | .error e => .error e
  | .ok (st1, host1) =>
    -- deactivate_integration_schedule: pass
    .ok ({ st1 with mixins_settings := [] }, host1)

/-- `PluginsRegistry.unload_plugins`. -/
def unloadPlugins (st : RegState) (host : Host) :
    Except (String × RegState × Host) (RegState × Host) :=
  let m := host.maintenance
  let host1 := if m then host else { host with maintenance := true }
  let st1 := cleanRegistry st
  match deactivatePlugins st1 host1 with
  | .error e => .error e
  | .ok (st2, host2) =>
    .ok (st2, if m then host2 else { host2 with maintenance := false })

/-- `PluginsRegistry.reload_plugins`: a no-op while `is_loading` is set;
otherwise unload then load inside the `maintenance_mode_on()` context
manager, which restores the prior maintenance state on exit (also when an
exception escapes). -/
def reloadPlugins (env : Env) (st : RegState) (host : Host) :
    Except (String × RegState × Host) (RegState × Host) :=
  if st.is_loading then
    .ok (st, host)
  else
    let m := host.maintenance
    let host1 := { host with maintenance := true }
    match unloadPlugins st host1 with
    | .error (p, stE, hE) => .error (p, stE, { hE with maintenance := m })
    | .ok (st1, host2) =>
      let out := loadPlugins env st1 host2
      match out.result with
      | .error (p, stE, hE) => .error (p, stE, { hE with maintenance := m })
      | .ok (st2, host3) => .ok (st2, { host3 with maintenance := m })

/-! ## `collect_plugins` -/

/-- The `settings.PLUGIN_DIRS` loop of `collect_plugins`: each source module
is imported with no surrounding handler, so a failing import raises out of
`collect_plugins` and the remaining sources are never visited. -/
def collectDirs : List DirSource → List PluginModule →
    Except String (List PluginModule)
  | [], acc => .ok acc
  | d :: rest, acc =>
    if d.importOk then collectDirs rest (acc ++ d.found)
    else .error d.modName

/-- The entry-point loop of `collect_plugins`: each `entry.load()` is wrapped
in `try/except`, recording a failing entry via `get_plugin_error(...,
log_name='discovery')` (modelled as an `errors` entry) and continuing. -/
def collectEntries : List EntryPoint → List PluginModule →
    List (String × String) → List PluginModule × List (String × String)
  | [], acc, errs => (acc, errs)
  | e :: rest, acc, errs =>
    if e.loadOk then
      collectEntries rest (acc ++ [{ e.plugin with isPackage := true }]) errs
    else
      collectEntries rest acc (dictInsert e.epName "discovery" errs)

/-- `PluginsRegistry.collect_plugins`: clear the discovery list, collect from
the filesystem sources (uncontained), then — unless testing without the
testing-setup flag — from the entry points (contained). -/
def collectPlugins (env : Env) (st : RegState) : Except String RegState :=
  let st0 := { st with plugin_modules := [] }
  match collectDirs env.pluginDirs [] with
  | .error m => .error m
  | .ok mods =>
    if !env.pluginTesting || (env.pluginTesting && env.pluginTestingSetup) then
      let p := collectEntries env.entryPoints mods st0.errors
      .ok { st0 with plugin_modules := p.1, errors := p.2 }
    else
      .ok { st0 with plugin_modules := mods }

/-! ## Deactivation event trace (order of teardown steps) -/

/-- The observable side-effect steps a deactivation pass can perform, in the
order the source performs them.  `removeScheduledTasks` is the scheduled-task
removal step; the source's `deactivate_integration_schedule` never performs
it (its body is `pass`). -/
inductive DeactEvent where
  | unregisterAdmin (appName : String)
  | removeModels (path : String)
  | cleanInstalledApps
  | resetAppsFlag
  | reloadApps
  | updateUrls
  | removeScheduledTasks
  | clearSettings
deriving Repr, DecidableEq

/-- `plugin_path.split('.')[-1]`. -/
def appNameOf (path : String) : String :=
  (path.splitOn ".").getLastD path

/-- The side-effect steps of `deactivate_integration_app`, in source order:
per installed path, unregister its models from the admin site and pop them
from the model registry; then clean the installed apps, reset
`INTEGRATION_APPS_LOADED`, reload the app registry, and rebuild the URLs. -/
def deactivateAppTrace (st : RegState) : List DeactEvent :=
  (st.installed_apps.flatMap
    (fun p => [DeactEvent.unregisterAdmin (appNameOf p), DeactEvent.removeModels p]))
  ++ [DeactEvent.cleanInstalledApps, DeactEvent.resetAppsFlag,
      DeactEvent.reloadApps, DeactEvent.updateUrls]

/-- The side-effect steps of `deactivate_integration_schedule`: its body is
`pass`, so there are none. -/
def deactivateScheduleTrace : List DeactEvent := []

/-- The side-effect steps of `deactivate_integration_settings`: clear the
settings contributions. -/
def deactivateSettingsTrace : List DeactEvent := [DeactEvent.clearSettings]

/-- The side-effect steps of a whole `_deactivate_plugins` pass, in source
order: app teardown, then schedule teardown, then settings teardown. -/
def deactivateTrace (st : RegState) : List DeactEvent :=
  deactivateAppTrace st ++ deactivateScheduleTrace ++ deactivateSettingsTrace

/-! ## `is_loading` observations inside `load_plugins` -/

/-- The value of `is_loading` sampled at the phase boundaries of the first
pass of `load_plugins`: at loop entry (after maintenance mode is handled —
which touches no registry field), after `_init_plugins`, and after
`_activate_plugins` (on an error, at the point the exception leaves the
phase).  `load_plugins` itself never assigns `is_loading`. -/
def loadObservedLoading (env : Env) (st : RegState) (host : Host) : List Bool :=
  let atEntry := st.is_loading
  match initPluginsAll env none st host with
  | .error e => [atEntry, e.2.1.is_loading]
  | .ok (st1, host1) =>
    let afterInit := st1.is_loading
    match activatePlugins env false st1 host1 with
    | .error e => [atEntry, afterInit, e.2.1.is_loading]
    | .ok (st2, _) => [atEntry, afterInit, st2.is_loading]

/-! ## Predicates used by the claim statements -/

/-- The config row `_init_plugins` works with for module `m`. -/
def cfgOf (m : PluginModule) (a : Bool) : PluginConfig :=
  ⟨plugKey m, m.pluginName, a⟩

/-- The store holds module `m`'s config row with `active = a` (under the
`get_or_create(key, name)` lookup). -/
def storeHas (store : List PluginConfig) (m : PluginModule) (a : Bool) : Prop :=
  findConfig (plugKey m) m.pluginName store = some (cfgOf m a)

/-- A module that loads without incident: instantiation succeeds and its
app import succeeds. -/
def cleanMod (m : PluginModule) : Prop :=
  m.failsInit = false ∧ m.failsActivation = false

instance (m : PluginModule) : Decidable (cleanMod m) :=
  inferInstanceAs (Decidable (_ ∧ _))

/-- A module whose load raises an `IntegrationPluginError`: at instantiation,
or — for an app-mixin plugin — during the app reload of activation. -/
def failsLoad (m : PluginModule) : Prop :=
  m.failsInit = true ∨ (m.hasApp = true ∧ m.failsActivation = true)

/-! ## Concrete fixtures for witnesses and counterexamples -/

/-- A plugin module with no mixins and no failures. -/
def baseMod (name : String) : PluginModule :=
  { pluginName := name, pluginSlug := none, isPackage := false,
    modName := "mods." ++ name, clsName := name ++ "Cls",
    path := "plugins." ++ name, failsInit := false, failsActivation := false,
    hasSettings := false, settingsKeys := [], hasSchedule := false,
    taskNames := [], hasApp := false }

/-- A production-mode environment with no discovery sources configured. -/
def baseEnv : Env :=
  { pluginRetry := 1, pluginTesting := false, pluginTestingSetup := false,
    enablePluginsSchedule := false, enablePluginsApp := false,
    pluginDirs := [], entryPoints := [] }

/-- A host with an empty config store and scheduler, out of maintenance. -/
def baseHost : Host :=
  { configStore := [], schedules := [], installedApps := [],
    integrationAppsLoaded := true, maintenance := false }

/-- A well-behaved plugin. -/
def modGood : PluginModule := baseMod "Good"

/-- A plugin whose instantiation always raises. -/
def modFlaky : PluginModule := { baseMod "Flaky" with failsInit := true }

/-- A registry that has discovered `modGood` and `modFlaky`. -/
def stGF : RegState :=
  { initialRegState with plugin_modules := [modGood, modFlaky] }

/-- A host whose store has both plugins enabled. -/
def hostGF : Host :=
  { baseHost with configStore := [cfgOf modGood true, cfgOf modFlaky true] }

/-- The host fields `_init_plugins` never writes. -/
def hostFrame (h h' : Host) : Prop :=
  h'.schedules = h.schedules ∧ h'.installedApps = h.installedApps ∧
  h'.maintenance = h.maintenance ∧
  h'.integrationAppsLoaded = h.integrationAppsLoaded

/-- The registry fields `_init_plugins` never writes. -/
def regFrameInit (s s' : RegState) : Prop :=
  s'.plugin_modules = s.plugin_modules ∧ s'.is_loading = s.is_loading ∧
  s'.apps_loading = s.apps_loading ∧ s'.installed_apps = s.installed_apps ∧
  s'.mixins_settings = s.mixins_settings

/-- The final registry state of a completed load, when no exception escaped. -/
def okState (o : LoadOutcome) : Option RegState :=
  o.result.toOption.map Prod.fst

/-- The final host state of a completed load, when no exception escaped. -/
def okHost (o : LoadOutcome) : Option Host :=
  o.result.toOption.map (fun p => p.2)

/-- A plugin declaring one scheduled task, named `alpha`. -/
def modSched : PluginModule :=
  { baseMod "Sched" with hasSchedule := true, taskNames := ["alpha"] }

/-- An environment with the schedule capability enabled. -/
def envSched : Env := { baseEnv with enablePluginsSchedule := true }

/-- A registry with `modSched` active. -/
def stSched : RegState :=
  { initialRegState with plugins := [("sched", mkInstance modSched)] }

/-- A host whose scheduler still holds a stale `beta` task from an earlier
generation of `modSched` next to its current `alpha` task. -/
def hostSched : Host :=
  { baseHost with configStore := [cfgOf modSched true], schedules := ["plugin.sched.alpha", "plugin.sched.beta", "unrelated.task"] }

/-- A registry with one installed plugin app, about to be deactivated. -/
def stDeact : RegState :=
  { initialRegState with installed_apps := ["plugins.sample"] }

/-- A discovery source whose module import raises. -/
def dirBad : DirSource := ⟨"ext.badsrc", false, []⟩

/-- A discovery source that imports fine and yields one plugin. -/
def dirGood : DirSource := ⟨"ext.goodsrc", true, [modGood]⟩

/-- An environment whose first filesystem source fails to import. -/
def envDirBad : Env := { baseEnv with pluginDirs := [dirBad, dirGood] }

/-- An environment with a healthy filesystem source and one broken plus one
healthy package entry point. -/
def envEntryMix : Env :=
  { baseEnv with pluginDirs := [dirGood], entryPoints := [⟨"epbad", false, modFlaky⟩, ⟨"epgood", true, modGood⟩] }

/-- A plugin used for the two-successive-loads scenario. -/
def modAl : PluginModule := baseMod "Al"

/-- A three-retry production environment. -/
def envR3 : Env := { baseEnv with pluginRetry := 3 }

/-- A two-retry production environment. -/
def envR2 : Env := { baseEnv with pluginRetry := 2 }

/-- The registry after a first successful load of `modAl`
(its plugin still in the active map). -/
def stAlLoaded : RegState :=
  match okState (loadPlugins envR3
    { initialRegState with plugin_modules := [modAl] }
    { baseHost with configStore := [cfgOf modAl true] }) with
  | some s => s
  | none => initialRegState

/-- The host after an admin disabled `modAl`'s persisted config. -/
def hostAlDisabled : Host :=
  { baseHost with configStore := [cfgOf modAl false] }

/-- `true` when some slug is a key of both the active and the inactive map. -/
def disjointViolation (s : RegState) : Bool :=
  (dictKeys s.plugins).any (fun k => (dictKeys s.plugins_inactive).contains k)

/-- A plugin with an app mixin whose app import raises during activation. -/
def modActy : PluginModule :=
  { baseMod "Acty" with hasApp := true, failsActivation := true }

/-- A two-retry environment with the app capability enabled. -/
def envR2App : Env :=
  { baseEnv with pluginRetry := 2, enablePluginsApp := true }

/-- A registry that has discovered only the healthy plugin. -/
def stGoodOnly : RegState :=
  { initialRegState with plugin_modules := [modGood] }

/-- A host with the healthy plugin enabled. -/
def hostGood : Host :=
  { baseHost with configStore := [cfgOf modGood true] }

/-- The registry state a load of `stGoodOnly` ends in. -/
def stGoodRes : RegState :=
  (okState (loadPlugins baseEnv stGoodOnly hostGood)).getD initialRegState

/-- The host state a load of `stGoodOnly` ends in. -/
def hostGoodRes : Host :=
  (okHost (loadPlugins baseEnv stGoodOnly hostGood)).getD baseHost

/-! ## Supporting lemmas: dictionaries -/

theorem mem_dictKeys {α : Type} {k : String} {d : List (String × α)} :
    k ∈ dictKeys d ↔ ∃ v, (k, v) ∈ d := by
  constructor
  · intro h
    rcases List.mem_map.mp h with ⟨⟨a, b⟩, hab, hk⟩
    exact ⟨b, by simpa [← hk] using hab⟩
  · rintro ⟨v, hv⟩
    exact List.mem_map.mpr ⟨(k, v), hv, rfl⟩

theorem self_mem_dictInsert {α : Type} (k : String) (v : α)
    (d : List (String × α)) : (k, v) ∈ dictInsert k v d := by
  induction d with
  | nil => simp [dictInsert]
  | cons hd tl ih =>
    obtain ⟨a, b⟩ := hd
    by_cases ha : a = k
    · simp [dictInsert, ha]
    · simp only [dictInsert, if_neg ha]
      exact List.mem_cons_of_mem _ ih

theorem mem_dictInsert_of_ne {α : Type} {x : String × α} {k : String} {v : α}
    {d : List (String × α)} (hx : x ∈ d) (hk : x.1 ≠ k) :
    x ∈ dictInsert k v d := by
  induction d with
  | nil => simp at hx
  | cons hd tl ih =>
    obtain ⟨a, b⟩ := hd
    by_cases ha : a = k
    · subst ha
      simp only [dictInsert, if_pos rfl]
      rcases List.mem_cons.mp hx with h1 | h2
      · exact absurd (congrArg Prod.fst h1) hk
      · exact List.mem_cons_of_mem _ h2
    · simp only [dictInsert, if_neg ha]
      rcases List.mem_cons.mp hx with h1 | h2
      · exact h1 ▸ List.mem_cons_self _ _
      · exact List.mem_cons_of_mem _ (ih h2)

theorem mem_dictInsert_elim {α : Type} {x : String × α} {k : String} {v : α}
    {d : List (String × α)} (h : x ∈ dictInsert k v d) :
    x = (k, v) ∨ x ∈ d := by
  induction d with
  | nil => simpa [dictInsert] using h
  | cons hd tl ih =>
    obtain ⟨a, b⟩ := hd
    by_cases ha : a = k
    · rcases List.mem_cons.mp (by simpa [dictInsert, ha] using h) with h1 | h2
      · exact Or.inl h1
      · exact Or.inr (List.mem_cons_of_mem _ h2)
    · rcases List.mem_cons.mp (by simpa [dictInsert, ha] using h) with h1 | h2
      · exact Or.inr (by simp [h1])
      · rcases ih h2 with h3 | h4
        · exact Or.inl h3
        · exact Or.inr (List.mem_cons_of_mem _ h4)

theorem mem_dictKeys_insert_self {α : Type} (k : String) (v : α)
    (d : List (String × α)) : k ∈ dictKeys (dictInsert k v d) :=
  mem_dictKeys.mpr ⟨v, self_mem_dictInsert k v d⟩

theorem mem_dictKeys_insert_of_mem {α : Type} {k' : String} (k : String) (v : α)
    {d : List (String × α)} (h : k' ∈ dictKeys d) :
    k' ∈ dictKeys (dictInsert k v d) := by
  rcases mem_dictKeys.mp h with ⟨v', hv'⟩
  by_cases hk : k' = k
  · subst hk
    exact mem_dictKeys_insert_self k' v d
  · exact mem_dictKeys.mpr ⟨v', mem_dictInsert_of_ne hv' hk⟩

theorem mem_dictKeys_insert_elim {α : Type} {k' k : String} {v : α}
    {d : List (String × α)} (h : k' ∈ dictKeys (dictInsert k v d)) :
    k' = k ∨ k' ∈ dictKeys d := by
  rcases mem_dictKeys.mp h with ⟨v', hv'⟩
  rcases mem_dictInsert_elim hv' with h1 | h2
  · exact Or.inl (by simpa using congrArg Prod.fst h1)
  · exact Or.inr (mem_dictKeys.mpr ⟨v', h2⟩)

theorem mem_dictInsert_same_val {α : Type} {k : String} {v : α}
    {d : List (String × α)} (k' : String) (h : (k, v) ∈ d) :
    (k, v) ∈ dictInsert k' v d := by
  by_cases hk : k = k'
  · subst hk
    exact self_mem_dictInsert k v d
  · exact mem_dictInsert_of_ne h hk

/-! ## Supporting lemmas: config store -/

theorem findConfig_saveConfig_self {c c0 : PluginConfig}
    {store : List PluginConfig}
    (h : findConfig c.key c.name store = some c0) :
    findConfig c.key c.name (saveConfig c store) = some c := by
  induction store with
  | nil => simp [findConfig] at h
  | cons hd tl ih =>
    by_cases hp : hd.key = c.key ∧ hd.name = c.name
    · simp [saveConfig, findConfig, hp]
    · simp only [findConfig, if_neg hp] at h
      simp only [saveConfig, List.map_cons, if_neg hp, findConfig]
      simpa [saveConfig] using ih h

theorem findConfig_saveConfig_ne {c : PluginConfig} {store : List PluginConfig}
    {k n : String} (hk : k ≠ c.key) :
    findConfig k n (saveConfig c store) = findConfig k n store := by
  induction store with
  | nil => simp [saveConfig, findConfig]
  | cons hd tl ih =>
    by_cases hp : hd.key = c.key ∧ hd.name = c.name
    · have hne : ¬ (hd.key = k ∧ hd.name = n) := by
        rintro ⟨h1, _⟩
        exact hk (h1 ▸ hp.1)
      have hne2 : ¬ (c.key = k ∧ c.name = n) := by
        rintro ⟨h1, _⟩
        exact hk h1.symm
      simp only [saveConfig, List.map_cons, if_pos hp, findConfig]
      rw [if_neg hne2, if_neg hne]
      simpa [saveConfig] using ih
    · simp only [saveConfig, List.map_cons, if_neg hp, findConfig]
      by_cases hq : hd.key = k ∧ hd.name = n
      · rw [if_pos hq, if_pos hq]
      · rw [if_neg hq, if_neg hq]
        simpa [saveConfig] using ih

/-! ## Supporting lemmas: schedule activation touches only the scheduler -/

theorem schedFoldStep_host (acc : List String × Host) (sp : String × PluginInstance) :
    ∃ sch, (schedFoldStep acc sp).2 = { acc.2 with schedules := sch } := by
  by_cases h1 : sp.2.mod.hasSchedule
  · cases hc : configByKey sp.2.slug acc.2.configStore with
    | none => exact ⟨acc.2.schedules, by simp [schedFoldStep, h1, hc]⟩
    | some cfg =>
      by_cases ha : cfg.active
      · refine ⟨acc.2.schedules ++
          (taskKeysOf sp.2).filter (fun n => !acc.2.schedules.contains n), ?_⟩
        simp [schedFoldStep, h1, hc, ha]
      · exact ⟨acc.2.schedules, by simp [schedFoldStep, h1, hc, ha]⟩
  · exact ⟨acc.2.schedules, by simp [schedFoldStep, h1]⟩

theorem schedFold_host (l : List (String × PluginInstance)) (acc : List String × Host) :
    ∃ ks sch, l.foldl schedFoldStep acc = (ks, { acc.2 with schedules := sch }) := by
  induction l generalizing acc with
  | nil => exact ⟨acc.1, acc.2.schedules, rfl⟩
  | cons hd tl ih =>
    obtain ⟨s1, h1⟩ := schedFoldStep_host acc hd
    obtain ⟨ks, sch, hh⟩ := ih (schedFoldStep acc hd)
    refine ⟨ks, sch, ?_⟩
    rw [List.foldl_cons, hh, h1]

theorem activateSchedule_host (env : Env) (st : RegState) (host : Host) :
    ∃ sch, activateSchedule env st host = { host with schedules := sch } := by
  unfold activateSchedule scheduleRegistration
  by_cases hg : (env.pluginTesting || env.enablePluginsSchedule) = true
  · rw [if_pos hg]
    obtain ⟨ks, sch, hh⟩ := schedFold_host st.plugins ([], host)
    rw [hh]
    exact ⟨_, rfl⟩
  · rw [if_neg hg]
    exact ⟨_, rfl⟩

/-! ## Supporting lemmas: the app-installation fold -/

theorem appFold_spec (l : List (String × PluginInstance)) (st : RegState)
    (host : Host) (ch : Bool) :
    ∃ added,
      l.foldl appFoldStep (st, host, ch) =
        ({ st with installed_apps := st.installed_apps ++ added },
         { host with installedApps := host.installedApps ++ added },
         (ch || !added.isEmpty)) ∧
      ∀ a ∈ added, a ∉ host.installedApps ∧
        ∃ sp ∈ l, sp.2.mod.hasApp = true ∧ a = getPluginPath sp.2 := by
  induction l generalizing st host ch with
  | nil => exact ⟨[], by simp, by simp⟩
  | cons hd tl ih =>
    by_cases h1 : hd.2.mod.hasApp
    · by_cases h2 : getPluginPath hd.2 ∈ host.installedApps
      · have hstep : appFoldStep (st, host, ch) hd = (st, host, ch) := by
          simp [appFoldStep, h1, h2]
        obtain ⟨added, hfold, hmem⟩ := ih st host ch
        refine ⟨added, by rw [List.foldl_cons, hstep]; exact hfold, ?_⟩
        intro a ha
        obtain ⟨hnot, sp, hsp, hha, hpa⟩ := hmem a ha
        exact ⟨hnot, sp, List.mem_cons_of_mem _ hsp, hha, hpa⟩
      · have hstep : appFoldStep (st, host, ch) hd =
            ({ st with installed_apps := st.installed_apps ++ [getPluginPath hd.2] },
             { host with installedApps := host.installedApps ++ [getPluginPath hd.2] },
             true) := by
          simp [appFoldStep, h1, h2]
        obtain ⟨added, hfold, hmem⟩ :=
          ih { st with installed_apps := st.installed_apps ++ [getPluginPath hd.2] }
             { host with installedApps := host.installedApps ++ [getPluginPath hd.2] }
             true
        refine ⟨getPluginPath hd.2 :: added, ?_, ?_⟩
        · rw [List.foldl_cons, hstep, hfold]
          simp [List.append_assoc]
        · intro a ha
          rcases List.mem_cons.mp ha with h3 | h3
          · subst h3
            exact ⟨h2, hd, List.mem_cons_self _ _, h1, rfl⟩
          · obtain ⟨hnot, sp, hsp, hha, hpa⟩ := hmem a h3
            refine ⟨fun hmem2 => hnot (by simp [hmem2]), sp,
              List.mem_cons_of_mem _ hsp, hha, hpa⟩
    · have hstep : appFoldStep (st, host, ch) hd = (st, host, ch) := by
        simp [appFoldStep, h1]
      obtain ⟨added, hfold, hmem⟩ := ih st host ch
      refine ⟨added, by rw [List.foldl_cons, hstep]; exact hfold, ?_⟩
      intro a ha
      obtain ⟨hnot, sp, hsp, hha, hpa⟩ := hmem a ha
      exact ⟨hnot, sp, List.mem_cons_of_mem _ hsp, hha, hpa⟩

theorem appFold_changed (l : List (String × PluginInstance)) (st : RegState)
    (host : Host) (ch : Bool)
    (h : ∃ sp ∈ l, sp.2.mod.hasApp = true ∧
      getPluginPath sp.2 ∉ host.installedApps) :
    (l.foldl appFoldStep (st, host, ch)).2.2 = true := by
  induction l generalizing st host ch with
  | nil => simp at h
  | cons hd tl ih =>
    obtain ⟨sp, hsp, hha, hpa⟩ := h
    by_cases h1 : hd.2.mod.hasApp
    · by_cases h2 : getPluginPath hd.2 ∈ host.installedApps
      · have hstep : appFoldStep (st, host, ch) hd = (st, host, ch) := by
          simp [appFoldStep, h1, h2]
        rw [List.foldl_cons, hstep]
        rcases List.mem_cons.mp hsp with h3 | h3
        · subst h3
          exact absurd h2 hpa
        · exact ih st host ch ⟨sp, h3, hha, hpa⟩
      · have hstep : appFoldStep (st, host, ch) hd =
            ({ st with installed_apps := st.installed_apps ++ [getPluginPath hd.2] },
             { host with installedApps := host.installedApps ++ [getPluginPath hd.2] },
             true) := by
          simp [appFoldStep, h1, h2]
        rw [List.foldl_cons, hstep]
        obtain ⟨added, hfold, _⟩ := appFold_spec tl
          { st with installed_apps := st.installed_apps ++ [getPluginPath hd.2] }
          { host with installedApps := host.installedApps ++ [getPluginPath hd.2] }
          true
        rw [hfold]
        simp
    · have hstep : appFoldStep (st, host, ch) hd = (st, host, ch) := by
        simp [appFoldStep, h1]
      rw [List.foldl_cons, hstep]
      rcases List.mem_cons.mp hsp with h3 | h3
      · subst h3
        exact absurd hha (by simp [h1])
      · exact ih st host ch ⟨sp, h3, hha, hpa⟩

/-! ## Supporting lemmas: `firstFailing` -/

theorem firstFailing_eq_none {l : List (String × PluginInstance)}
    (h : ∀ sp ∈ l, (sp.2.mod.hasApp && sp.2.mod.failsActivation) = false) :
    firstFailing l = none := by
  induction l with
  | nil => rfl
  | cons hd tl ih =>
    have hhd := h hd (List.mem_cons_self _ _)
    simp only [firstFailing, hhd]
    simp only [Bool.false_eq_true, if_false]
    exact ih (fun sp hsp => h sp (List.mem_cons_of_mem _ hsp))

theorem firstFailing_eq_some {l : List (String × PluginInstance)} {q : String}
    (hex : ∃ sp ∈ l, (sp.2.mod.hasApp && sp.2.mod.failsActivation) = true)
    (hall : ∀ sp ∈ l, (sp.2.mod.hasApp && sp.2.mod.failsActivation) = true →
      errorPath sp.2.mod = q) :
    firstFailing l = some q := by
  induction l with
  | nil => simp at hex
  | cons hd tl ih =>
    by_cases hhd : (hd.2.mod.hasApp && hd.2.mod.failsActivation) = true
    · simp only [firstFailing, hhd, if_true]
      exact congrArg some (hall hd (List.mem_cons_self _ _) hhd)
    · simp only [firstFailing, hhd]
      simp only [Bool.false_eq_true, if_false]
      rcases hex with ⟨sp, hsp, hp⟩
      rcases List.mem_cons.mp hsp with h3 | h3
      · exact absurd (h3 ▸ hp) hhd
      · exact ih ⟨sp, h3, hp⟩ (fun sp hsp hp => hall sp (List.mem_cons_of_mem _ hsp) hp)

/-! ## Supporting lemmas: `_init_plugins` -/

theorem initPlugins_append (env : Env) (d : Option String)
    (l1 l2 : List PluginModule) (st : RegState) (host : Host) :
    initPlugins env d (l1 ++ l2) st host =
      match initPlugins env d l1 st host with
      | .error e => .error e
      | .ok p => initPlugins env d l2 p.1 p.2 := by
  induction l1 generalizing st host with
  | nil => simp [initPlugins]
  | cons hd tl ih =>
    simp only [List.cons_append, initPlugins]
    cases initOne env d hd st host with
    | error e => rfl
    | ok p => exact ih p.1 p.2

theorem initOne_ok_active (env : Env) (d : Option String) (m : PluginModule)
    (st : RegState) (host : Host) (a : Bool)
    (hnb : ∀ dd, d = some dd → blockedMatches dd m = false)
    (hs : findConfig (plugKey m) m.pluginName host.configStore = some (cfgOf m a))
    (hact : (env.pluginTesting || a) = true)
    (hfi : m.failsInit = false) :
    initOne env d m st host =
      .ok ({ st with plugins := dictInsert (plugKey m) (mkInstance m) st.plugins },
        host) := by
  cases d with
  | none => simp [initOne, getOrCreate, hs, cfgOf, hact, initAttempt, hfi]
  | some dd =>
    have hb := hnb dd rfl
    simp [initOne, getOrCreate, hs, cfgOf, hact, hb, initAttempt, hfi]

theorem initOne_ok_inactive (env : Env) (d : Option String) (m : PluginModule)
    (st : RegState) (host : Host)
    (hs : findConfig (plugKey m) m.pluginName host.configStore =
      some (cfgOf m false))
    (hT : env.pluginTesting = false) :
    initOne env d m st host =
      .ok ({ st with plugins_inactive :=
          (dictInsert (plugKey m) (some (cfgOf m false)) st.plugins_inactive) },
        host) := by
  simp [initOne, getOrCreate, hs, cfgOf, hT]

theorem initOne_quarantine (env : Env) (dd : String) (f : PluginModule)
    (st : RegState) (host : Host)
    (hT : env.pluginTesting = false)
    (hm : blockedMatches dd f = true)
    (hs : findConfig (plugKey f) f.pluginName host.configStore =
      some (cfgOf f true)) :
    initOne env (some dd) f st host =
      .ok ({ st with plugins_inactive :=
          (dictInsert (plugKey f) (some (cfgOf f false)) st.plugins_inactive) },
        { host with configStore := saveConfig (cfgOf f false) host.configStore }) := by
  simp [initOne, getOrCreate, hs, cfgOf, hT, hm]

theorem initOne_fail (env : Env) (d : Option String) (f : PluginModule)
    (st : RegState) (host : Host) (a : Bool)
    (hnb : ∀ dd, d = some dd → blockedMatches dd f = false)
    (hs : findConfig (plugKey f) f.pluginName host.configStore = some (cfgOf f a))
    (hact : (env.pluginTesting || a) = true)
    (hfi : f.failsInit = true) :
    initOne env d f st host =
      .error (errorPath f,
        { st with errors := dictInsert (errorPath f) "init" st.errors }, host) := by
  cases d with
  | none => simp [initOne, getOrCreate, hs, cfgOf, hact, initAttempt, hfi]
  | some dd =>
    have hb := hnb dd rfl
    simp [initOne, getOrCreate, hs, cfgOf, hact, hb, initAttempt, hfi]

/-- Whether `_init_plugins` will attempt to instantiate module `m`
(`settings.PLUGIN_TESTING or plugin_db_setting.active`). -/
def attempted (env : Env) (activeOf : PluginModule → Bool) (m : PluginModule) : Bool :=
  env.pluginTesting || activeOf m

theorem initPlugins_clean (env : Env) (d : Option String)
    (activeOf : PluginModule → Bool) (mods : List PluginModule)
    (st : RegState) (host : Host)
    (hs : ∀ m ∈ mods, findConfig (plugKey m) m.pluginName host.configStore =
      some (cfgOf m (activeOf m)))
    (hnb : ∀ m ∈ mods, ∀ dd, d = some dd → blockedMatches dd m = false)
    (hcl : ∀ m ∈ mods, (env.pluginTesting || activeOf m) = true →
      m.failsInit = false) :
    ∃ st', initPlugins env d mods st host = .ok (st', host) ∧
      (∀ x ∈ st'.plugins, x ∈ st.plugins ∨
        ∃ m ∈ mods, attempted env activeOf m = true ∧
          x = (plugKey m, mkInstance m)) ∧
      (∀ x ∈ st'.plugins_inactive, x ∈ st.plugins_inactive ∨
        ∃ m ∈ mods, attempted env activeOf m = false ∧
          x = (plugKey m, some (cfgOf m false))) ∧
      (∀ m ∈ mods, attempted env activeOf m = true →
        plugKey m ∈ dictKeys st'.plugins) ∧
      (∀ m ∈ mods, attempted env activeOf m = false →
        plugKey m ∈ dictKeys st'.plugins_inactive) ∧
      (∀ k ∈ dictKeys st.plugins, k ∈ dictKeys st'.plugins) ∧
      (∀ k ∈ dictKeys st.plugins_inactive, k ∈ dictKeys st'.plugins_inactive) ∧
      st'.plugin_modules = st.plugin_modules ∧ st'.errors = st.errors ∧
      st'.is_loading = st.is_loading ∧ st'.apps_loading = st.apps_loading ∧
      st'.installed_apps = st.installed_apps ∧
      st'.mixins_settings = st.mixins_settings := by
  induction mods generalizing st with
  | nil =>
    exact ⟨st, rfl, fun x hx => Or.inl hx, fun x hx => Or.inl hx,
      by simp, by simp, fun k hk => hk, fun k hk => hk,
      rfl, rfl, rfl, rfl, rfl, rfl⟩
  | cons hd tl ih =>
    have hshd := hs hd (List.mem_cons_self _ _)
    have hstl : ∀ m ∈ tl, findConfig (plugKey m) m.pluginName host.configStore =
        some (cfgOf m (activeOf m)) :=
      fun m hm => hs m (List.mem_cons_of_mem _ hm)
    have hnbtl : ∀ m ∈ tl, ∀ dd, d = some dd → blockedMatches dd m = false :=
      fun m hm => hnb m (List.mem_cons_of_mem _ hm)
    have hcltl : ∀ m ∈ tl, (env.pluginTesting || activeOf m) = true →
        m.failsInit = false :=
      fun m hm => hcl m (List.mem_cons_of_mem _ hm)
    by_cases hA : (env.pluginTesting || activeOf hd) = true
    · have hstep := initOne_ok_active env d hd st host (activeOf hd)
        (hnb hd (List.mem_cons_self _ _)) hshd hA
        (hcl hd (List.mem_cons_self _ _) hA)
      obtain ⟨st', heq, hpl, hin, hks, hksi, hmono, hmonoi, hframe⟩ :=
        ih { st with plugins := dictInsert (plugKey hd) (mkInstance hd) st.plugins }
          hstl hnbtl hcltl
      refine ⟨st', ?_, ?_, ?_, ?_, ?_, ?_, ?_, ?_⟩
      · simp only [initPlugins, hstep]
        exact heq
      · intro x hx
        rcases hpl x hx with h1 | ⟨m, hm, hat, hxv⟩
        · rcases mem_dictInsert_elim (by simpa using h1) with h2 | h2
          · exact Or.inr ⟨hd, List.mem_cons_self _ _, hA, h2⟩
          · exact Or.inl h2
        · exact Or.inr ⟨m, List.mem_cons_of_mem _ hm, hat, hxv⟩
      · intro x hx
        rcases hin x hx with h1 | ⟨m, hm, hat, hxv⟩
        · exact Or.inl (by simpa using h1)
        · exact Or.inr ⟨m, List.mem_cons_of_mem _ hm, hat, hxv⟩
      · intro m hm hat
        rcases List.mem_cons.mp hm with h1 | h1
        · subst h1
          exact hmono _ (by simpa using mem_dictKeys_insert_self (plugKey m) (mkInstance m) st.plugins)
        · exact hks m h1 hat
      · intro m hm hat
        rcases List.mem_cons.mp hm with h1 | h1
        · subst h1
          exact absurd hat (by simp [attempted, hA])
        · exact hksi m h1 hat
      · intro k hk
        exact hmono _ (by simpa using mem_dictKeys_insert_of_mem (plugKey hd) (mkInstance hd) hk)
      · intro k hk
        exact hmonoi _ (by simpa using hk)
      · simpa using hframe
    · have hA0 : (env.pluginTesting || activeOf hd) = false := by
        revert hA
        cases env.pluginTesting <;> cases activeOf hd <;> simp
      have hT : env.pluginTesting = false := by
        revert hA0
        cases env.pluginTesting <;> simp
      have hAf : activeOf hd = false := by
        revert hA0
        cases activeOf hd <;> cases env.pluginTesting <;> simp
      have hstep := initOne_ok_inactive env d hd st host (by rw [← hAf]; exact hshd) hT
      obtain ⟨st', heq, hpl, hin, hks, hksi, hmono, hmonoi, hframe⟩ :=
        ih { st with plugins_inactive :=
            dictInsert (plugKey hd) (some (cfgOf hd false)) st.plugins_inactive }
          hstl hnbtl hcltl
      refine ⟨st', ?_, ?_, ?_, ?_, ?_, ?_, ?_, ?_⟩
      · simp only [initPlugins, hstep]
        exact heq
      · intro x hx
        rcases hpl x hx with h1 | ⟨m, hm, hat, hxv⟩
        · exact Or.inl (by simpa using h1)
        · exact Or.inr ⟨m, List.mem_cons_of_mem _ hm, hat, hxv⟩
      · intro x hx
        rcases hin x hx with h1 | ⟨m, hm, hat, hxv⟩
        · rcases mem_dictInsert_elim (by simpa using h1) with h2 | h2
          · exact Or.inr ⟨hd, List.mem_cons_self _ _, hA0, h2⟩
          · exact Or.inl h2
        · exact Or.inr ⟨m, List.mem_cons_of_mem _ hm, hat, hxv⟩
      · intro m hm hat
        rcases List.mem_cons.mp hm with h1 | h1
        · subst h1
          exact absurd hat (by simp [attempted, hA0])
        · exact hks m h1 hat
      · intro m hm hat
        rcases List.mem_cons.mp hm with h1 | h1
        · subst h1
          exact hmonoi _ (by simpa using mem_dictKeys_insert_self (plugKey m) (some (cfgOf m false)) st.plugins_inactive)
        · exact hksi m h1 hat
      · intro k hk
        exact hmono _ (by simpa using hk)
      · intro k hk
        exact hmonoi _ (by simpa using mem_dictKeys_insert_of_mem (plugKey hd) (some (cfgOf hd false)) hk)
      · simpa using hframe

/-! ## Supporting lemmas: activation outcomes -/

theorem activateApp_ok (env : Env) (force : Bool) (st : RegState) (host : Host)
    (hnf : ∀ sp ∈ st.plugins,
      (sp.2.mod.hasApp && sp.2.mod.failsActivation) = false) :
    ∃ st' host' added,
      activateApp env force st host = .ok (st', host') ∧
      st'.plugins = st.plugins ∧
      st'.plugins_inactive = st.plugins_inactive ∧
      st'.plugin_modules = st.plugin_modules ∧
      st'.errors = st.errors ∧
      st'.mixins_settings = st.mixins_settings ∧
      st'.installed_apps = st.installed_apps ++ added ∧
      (st'.is_loading = st.is_loading ∨ st'.is_loading = false) ∧
      ((env.pluginTesting || env.enablePluginsApp) = true → force = true →
        st'.is_loading = false) ∧
      host'.configStore = host.configStore ∧
      host'.schedules = host.schedules ∧
      host'.installedApps = host.installedApps ++ added ∧
      host'.maintenance = host.maintenance ∧
      host'.integrationAppsLoaded = host.integrationAppsLoaded ∧
      (∀ a ∈ added, a ∉ host.installedApps ∧
        ∃ sp ∈ st.plugins, sp.2.mod.hasApp = true ∧ a = getPluginPath sp.2) := by
  obtain ⟨added, hfold, hmem⟩ := appFold_spec st.plugins st host false
  have hnone : firstFailing st.plugins = none := firstFailing_eq_none hnf
  by_cases hg : (env.pluginTesting || env.enablePluginsApp) = true
  · by_cases hch : ((false || !added.isEmpty) || force) = true
    · by_cases hal : (st.apps_loading || force) = true
      · refine ⟨{ st with installed_apps := st.installed_apps ++ added, apps_loading := false, is_loading := false }, { host with installedApps := host.installedApps ++ added }, added, ?_, rfl, rfl, rfl, rfl, rfl, rfl, Or.inr rfl, fun _ _ => rfl, rfl, rfl, rfl, rfl, rfl, hmem⟩
        simp only [activateApp, hfold]
        rw [if_pos hg, if_pos hch, if_pos hal]
        simp only [reloadApps, firstFailingApp, hnone]
      · refine ⟨{ st with installed_apps := st.installed_apps ++ added, is_loading := false }, { host with installedApps := host.installedApps ++ added }, added, ?_, rfl, rfl, rfl, rfl, rfl, rfl, Or.inr rfl, fun _ hfr => absurd (by simp [hfr]) hal, rfl, rfl, rfl, rfl, rfl, hmem⟩
        simp only [activateApp, hfold]
        rw [if_pos hg, if_pos hch, if_neg hal]
        simp only [reloadApps, firstFailingApp, hnone]
    · have heq : activateApp env force st host = .ok ({ st with installed_apps := st.installed_apps ++ added }, { host with installedApps := host.installedApps ++ added }) := by
        simp only [activateApp, hfold]
        rw [if_pos hg, if_neg hch]
      exact ⟨_, _, added, heq, rfl, rfl, rfl, rfl, rfl, rfl, Or.inl rfl, fun _ hfr => absurd (by simp [hfr]) hch, rfl, rfl, rfl, rfl, rfl, hmem⟩
  · refine ⟨st, host, [], ?_, rfl, rfl, rfl, rfl, rfl, by simp, Or.inl rfl,
      fun hgg _ => absurd hgg hg, rfl, rfl, by simp, rfl, rfl, by simp⟩
    simp only [activateApp]
    rw [if_neg hg]

theorem activatePlugins_ok (env : Env) (force : Bool) (st : RegState) (host : Host)
    (hnf : ∀ sp ∈ st.plugins,
      (sp.2.mod.hasApp && sp.2.mod.failsActivation) = false) :
    ∃ st' host' added,
      activatePlugins env force st host = .ok (st', host') ∧
      st'.plugins = st.plugins ∧
      st'.plugins_inactive = st.plugins_inactive ∧
      st'.plugin_modules = st.plugin_modules ∧
      st'.errors = st.errors ∧
      st'.installed_apps = st.installed_apps ++ added ∧
      (st'.is_loading = st.is_loading ∨ st'.is_loading = false) ∧
      ((env.pluginTesting || env.enablePluginsApp) = true → force = true →
        st'.is_loading = false) ∧
      host'.configStore = host.configStore ∧
      host'.installedApps = host.installedApps ++ added ∧
      host'.maintenance = host.maintenance ∧
      host'.integrationAppsLoaded = host.integrationAppsLoaded ∧
      (∀ a ∈ added, a ∉ host.installedApps ∧
        ∃ sp ∈ st.plugins, sp.2.mod.hasApp = true ∧ a = getPluginPath sp.2) := by
  obtain ⟨sch, hsch⟩ := activateSchedule_host env (activateSettings st) host
  have hplug : (activateSettings st).plugins = st.plugins := rfl
  obtain ⟨st', host', added, heq, hc⟩ :=
    activateApp_ok env force (activateSettings st)
      { host with schedules := sch } (by rw [hplug]; exact hnf)
  refine ⟨st', host', added, ?_, ?_⟩
  · show (let st1 := activateSettings st
      let host1 := activateSchedule env st1 host
      activateApp env force st1 host1) = .ok (st', host')
    simp only
    rw [hsch]
    exact heq
  · obtain ⟨h1, h2, h3, h4, h5, h6, h7, h8, h9, h10, h11, h12, h13, h14⟩ := hc
    exact ⟨h1, h2, h3, h4, h6, h7, h8, h9, h11, h12, h13,
      fun a ha => (h14 a ha).imp_right
        (fun ⟨sp, hsp, hh, hp⟩ => ⟨sp, by rw [← hplug]; exact hsp, hh, hp⟩)⟩

theorem activatePlugins_error (env : Env) (force : Bool) (st : RegState)
    (host : Host) (q : String)
    (hgate : (env.pluginTesting || env.enablePluginsApp) = true)
    (hfail : firstFailing st.plugins = some q)
    (hch : (∃ sp ∈ st.plugins, sp.2.mod.hasApp = true ∧
        getPluginPath sp.2 ∉ host.installedApps) ∨ force = true) :
    ∃ stE hostE added,
      activatePlugins env force st host = .error (q, stE, hostE) ∧
      stE.plugins = st.plugins ∧
      stE.plugins_inactive = st.plugins_inactive ∧
      stE.plugin_modules = st.plugin_modules ∧
      stE.errors = st.errors ∧
      stE.installed_apps = st.installed_apps ++ added ∧
      stE.is_loading = true ∧
      hostE.configStore = host.configStore ∧
      hostE.installedApps = host.installedApps ++ added ∧
      hostE.maintenance = host.maintenance ∧
      hostE.integrationAppsLoaded = host.integrationAppsLoaded ∧
      (∀ a ∈ added, a ∉ host.installedApps ∧
        ∃ sp ∈ st.plugins, sp.2.mod.hasApp = true ∧ a = getPluginPath sp.2) := by
  obtain ⟨sch, hsch⟩ := activateSchedule_host env (activateSettings st) host
  have hplug : (activateSettings st).plugins = st.plugins := rfl
  obtain ⟨added, hfold, hmem⟩ := appFold_spec (activateSettings st).plugins
    (activateSettings st) { host with schedules := sch } false
  have hchanged : ((false || !added.isEmpty) || force) = true := by
    rcases hch with hw | hf
    · have := appFold_changed (activateSettings st).plugins (activateSettings st)
        { host with schedules := sch } false
        (by
          obtain ⟨sp, hsp, hh, hp⟩ := hw
          exact ⟨sp, by rw [hplug]; exact hsp, hh, by simpa using hp⟩)
      rw [hfold] at this
      simp only at this
      rw [this]
      simp
    · simp [hf]
  by_cases hal : ((activateSettings st).apps_loading || force) = true
  · refine ⟨{ activateSettings st with installed_apps := (activateSettings st).installed_apps ++ added, apps_loading := false, is_loading := true }, { host with schedules := sch, installedApps := host.installedApps ++ added }, added, ?_, rfl, rfl, rfl, rfl, rfl, rfl, rfl, rfl, rfl, rfl, ?_⟩
    · show (let st1 := activateSettings st
        let host1 := activateSchedule env st1 host
        activateApp env force st1 host1) = .error (q, _, _)
      simp only
      rw [hsch]
      simp only [activateApp, hfold]
      rw [if_pos hgate, if_pos hchanged, if_pos hal]
      simp only [reloadApps, firstFailingApp]
      rw [show firstFailing ({ activateSettings st with
          installed_apps := (activateSettings st).installed_apps ++ added,
          apps_loading := false, is_loading := true } : RegState).plugins =
        firstFailing st.plugins from rfl, hfail]
    · intro a ha
      obtain ⟨hnot, sp, hsp, hh, hp⟩ := hmem a ha
      exact ⟨by simpa using hnot, sp, by rw [← hplug]; exact hsp, hh, hp⟩
  · refine ⟨{ activateSettings st with installed_apps := (activateSettings st).installed_apps ++ added, is_loading := true }, { host with schedules := sch, installedApps := host.installedApps ++ added }, added, ?_, rfl, rfl, rfl, rfl, rfl, rfl, rfl, rfl, rfl, rfl, ?_⟩
    · show (let st1 := activateSettings st
        let host1 := activateSchedule env st1 host
        activateApp env force st1 host1) = .error (q, _, _)
      simp only
      rw [hsch]
      simp only [activateApp, hfold]
      rw [if_pos hgate, if_pos hchanged, if_neg hal]
      simp only [reloadApps, firstFailingApp]
      rw [show firstFailing ({ activateSettings st with
          installed_apps := (activateSettings st).installed_apps ++ added,
          is_loading := true } : RegState).plugins =
        firstFailing st.plugins from rfl, hfail]
    · intro a ha
      obtain ⟨hnot, sp, hsp, hh, hp⟩ := hmem a ha
      exact ⟨by simpa using hnot, sp, by rw [← hplug]; exact hsp, hh, hp⟩

theorem afterFailure_spec (env : Env) (path : String) (stE : RegState)
    (hostE : Host) :
    ∃ st2 host2,
      afterFailure env path stE hostE = .ok (st2, host2) ∧
      st2.plugins = [] ∧ st2.plugins_inactive = [] ∧ st2.installed_apps = [] ∧
      st2.plugin_modules = stE.plugin_modules ∧
      st2.errors = dictInsert path "load" stE.errors ∧
      (st2.is_loading = stE.is_loading ∨ st2.is_loading = false) ∧
      ((env.pluginTesting || env.enablePluginsApp) = true →
        st2.is_loading = false) ∧
      host2.configStore = hostE.configStore ∧
      host2.installedApps =
        hostE.installedApps.filter (fun a => !stE.installed_apps.contains a) ∧
      host2.maintenance = hostE.maintenance ∧
      host2.integrationAppsLoaded = hostE.integrationAppsLoaded := by
  obtain ⟨st', host', added, heq, h1, h2, h3, h4, h5, h6, h7, h8, h9, h10, h11, h12⟩ :=
    activatePlugins_ok env true
      { stE with plugins := [], plugins_inactive := [], errors := dictInsert path "load" stE.errors, installed_apps := [] }
      { hostE with installedApps := (hostE.installedApps.filter (fun a => !stE.installed_apps.contains a)) }
      (by intro sp hsp; simp at hsp)
  have hadded : added = [] := by
    cases hadd : added with
    | nil => rfl
    | cons a as =>
      obtain ⟨-, sp, hsp, -⟩ := h12 a (by rw [hadd]; exact List.mem_cons_self _ _)
      simp at hsp
  refine ⟨st', host', ?_, by simpa using h1, by simpa using h2, ?_,
    by simpa using h3, by simpa using h4, by simpa using h6,
    fun hg => h7 hg rfl, by simpa using h8, ?_, by simpa using h10,
    by simpa using h11⟩
  · exact heq
  · rw [hadded] at h5
    simpa using h5
  · rw [hadded] at h9
    simpa using h9

/-- Every run of the `_init_plugins` body for one module either raises the
module's error with only the error log extended, or stores the instance in
the active map under the derived key, or stores a config in the inactive map
under the derived key; the host changes only in its config store. -/
theorem initOne_cases (env : Env) (d : Option String) (m : PluginModule)
    (st : RegState) (host : Host) :
    (∃ cs, initOne env d m st host =
      .error (errorPath m,
        { st with errors := (dictInsert (errorPath m) "init" st.errors) },
        { host with configStore := cs })) ∨
    (∃ cs, initOne env d m st host =
      .ok ({ st with plugins :=
        (dictInsert (plugKey m) (mkInstance m) st.plugins) },
        { host with configStore := cs })) ∨
    (∃ cs v, initOne env d m st host =
      .ok ({ st with plugins_inactive :=
        (dictInsert (plugKey m) v st.plugins_inactive) },
        { host with configStore := cs })) := by
  unfold initOne
  cases hgc : getOrCreate (plugKey m) m.pluginName host.configStore with
  | mk cfg store1 =>
    simp only [hgc]
    by_cases hact : (env.pluginTesting || cfg.active) = true
    · rw [if_pos hact]
      cases d with
      | none =>
        unfold initAttempt
        by_cases hf : m.failsInit = true
        · rw [if_pos hf]
          exact Or.inl ⟨store1, rfl⟩
        · rw [if_neg hf]
          exact Or.inr (Or.inl ⟨store1, rfl⟩)
      | some dd =>
        simp only
        by_cases hb : blockedMatches dd m = true
        · rw [if_pos hb]
          by_cases hT : env.pluginTesting = true
          · rw [if_pos hT]
            exact Or.inr (Or.inr ⟨store1, some cfg, rfl⟩)
          · rw [if_neg hT]
            exact Or.inr (Or.inr ⟨_, _, rfl⟩)
        · rw [if_neg hb]
          unfold initAttempt
          by_cases hf : m.failsInit = true
          · rw [if_pos hf]
            exact Or.inl ⟨store1, rfl⟩
          · rw [if_neg hf]
            exact Or.inr (Or.inl ⟨store1, rfl⟩)
    · rw [if_neg hact]
      exact Or.inr (Or.inr ⟨store1, some cfg, rfl⟩)

/-- `_init_plugins` only writes the plugin maps, the error log and the
config store: all other registry and host fields are preserved, whether the
pass completes or raises. -/
theorem initPlugins_frames (env : Env) (d : Option String)
    (mods : List PluginModule) (st : RegState) (host : Host) :
    (∀ st' host', initPlugins env d mods st host = .ok (st', host') →
      regFrameInit st st' ∧ hostFrame host host') ∧
    (∀ path stE hostE, initPlugins env d mods st host = .error (path, stE, hostE) →
      regFrameInit st stE ∧ hostFrame host hostE) := by
  induction mods generalizing st host with
  | nil =>
    constructor
    · intro st' host' h
      simp only [initPlugins, Except.ok.injEq, Prod.mk.injEq] at h
      obtain ⟨h1, h2⟩ := h
      subst h1; subst h2
      exact ⟨⟨rfl, rfl, rfl, rfl, rfl⟩, ⟨rfl, rfl, rfl, rfl⟩⟩
    · intro path stE hostE h
      simp [initPlugins] at h
  | cons hd tl ih =>
    rcases initOne_cases env d hd st host with ⟨cs, hcase⟩ | ⟨cs, hcase⟩ | ⟨cs, v, hcase⟩
    · constructor
      · intro st' host' h
        simp only [initPlugins, hcase] at h
        exact Except.noConfusion h
      · intro path stE hostE h
        simp only [initPlugins, hcase, Except.error.injEq, Prod.mk.injEq] at h
        obtain ⟨h1, h2, h3⟩ := h
        subst h2; subst h3
        exact ⟨⟨rfl, rfl, rfl, rfl, rfl⟩, ⟨rfl, rfl, rfl, rfl⟩⟩
    · have hih := ih { st with plugins := (dictInsert (plugKey hd) (mkInstance hd) st.plugins) } { host with configStore := cs }
      constructor
      · intro st' host' h
        simp only [initPlugins, hcase] at h
        obtain ⟨hr, hh⟩ := hih.1 st' host' h
        exact ⟨hr, hh⟩
      · intro path stE hostE h
        simp only [initPlugins, hcase] at h
        obtain ⟨hr, hh⟩ := hih.2 path stE hostE h
        exact ⟨hr, hh⟩
    · have hih := ih { st with plugins_inactive := (dictInsert (plugKey hd) v st.plugins_inactive) } { host with configStore := cs }
      constructor
      · intro st' host' h
        simp only [initPlugins, hcase] at h
        obtain ⟨hr, hh⟩ := hih.1 st' host' h
        exact ⟨hr, hh⟩
      · intro path stE hostE h
        simp only [initPlugins, hcase] at h
        obtain ⟨hr, hh⟩ := hih.2 path stE hostE h
        exact ⟨hr, hh⟩

/-- Inversion for `activate_integration_app`: whatever happened, a completed
call only extended the installed-apps lists (with paths of active app-mixin
plugins) and possibly toggled the loading flags, and a raising call reports
a failing app while scheduling and config state are untouched. -/
theorem activateApp_inv (env : Env) (force : Bool) (st : RegState) (host : Host) :
    (∀ st' host', activateApp env force st host = .ok (st', host') →
      st'.plugins = st.plugins ∧ st'.plugins_inactive = st.plugins_inactive ∧
      st'.plugin_modules = st.plugin_modules ∧ st'.errors = st.errors ∧
      (st'.is_loading = st.is_loading ∨ st'.is_loading = false) ∧
      host'.configStore = host.configStore ∧
      host'.schedules = host.schedules ∧
      host'.maintenance = host.maintenance ∧
      ∃ added, st'.installed_apps = st.installed_apps ++ added ∧
        host'.installedApps = host.installedApps ++ added ∧
        (∀ a ∈ added, a ∉ host.installedApps ∧
          ∃ sp ∈ st.plugins, sp.2.mod.hasApp = true ∧ a = getPluginPath sp.2)) ∧
    (∀ q stE hostE, activateApp env force st host = .error (q, stE, hostE) →
      stE.plugin_modules = st.plugin_modules ∧ stE.is_loading = true ∧
      (env.pluginTesting || env.enablePluginsApp) = true ∧
      hostE.configStore = host.configStore ∧
      hostE.maintenance = host.maintenance) := by
  obtain ⟨added, hfold, hmem⟩ := appFold_spec st.plugins st host false
  by_cases hg : (env.pluginTesting || env.enablePluginsApp) = true
  · by_cases hch : ((false || !added.isEmpty) || force) = true
    · by_cases hal : (st.apps_loading || force) = true
      · cases hff : firstFailing st.plugins with
        | none =>
          have hcase : activateApp env force st host =
              .ok ({ st with installed_apps := st.installed_apps ++ added, apps_loading := false, is_loading := false }, { host with installedApps := host.installedApps ++ added }) := by
            simp only [activateApp, hfold]
            rw [if_pos hg, if_pos hch, if_pos hal]
            simp only [reloadApps, firstFailingApp]
            rw [show firstFailing ({ st with installed_apps := st.installed_apps ++ added, apps_loading := false, is_loading := true } : RegState).plugins = firstFailing st.plugins from rfl, hff]
          constructor
          · intro st' host' h
            rw [hcase, Except.ok.injEq, Prod.mk.injEq] at h
            obtain ⟨h1, h2⟩ := h
            subst h1; subst h2
            exact ⟨rfl, rfl, rfl, rfl, Or.inr rfl, rfl, rfl, rfl, added, rfl, rfl, hmem⟩
          · intro q stE hostE h
            rw [hcase] at h
            exact Except.noConfusion h
        | some q0 =>
          have hcase : activateApp env force st host =
              .error (q0, { st with installed_apps := st.installed_apps ++ added, apps_loading := false, is_loading := true }, { host with installedApps := host.installedApps ++ added }) := by
            simp only [activateApp, hfold]
            rw [if_pos hg, if_pos hch, if_pos hal]
            simp only [reloadApps, firstFailingApp]
            rw [show firstFailing ({ st with installed_apps := st.installed_apps ++ added, apps_loading := false, is_loading := true } : RegState).plugins = firstFailing st.plugins from rfl, hff]
          constructor
          · intro st' host' h
            rw [hcase] at h
            exact Except.noConfusion h
          · intro q stE hostE h
            rw [hcase, Except.error.injEq, Prod.mk.injEq, Prod.mk.injEq] at h
            obtain ⟨h1, h2, h3⟩ := h
            subst h2; subst h3
            exact ⟨rfl, rfl, hg, rfl, rfl⟩
      · cases hff : firstFailing st.plugins with
        | none =>
          have hcase : activateApp env force st host =
              .ok ({ st with installed_apps := st.installed_apps ++ added, is_loading := false }, { host with installedApps := host.installedApps ++ added }) := by
            simp only [activateApp, hfold]
            rw [if_pos hg, if_pos hch, if_neg hal]
            simp only [reloadApps, firstFailingApp]
            rw [show firstFailing ({ st with installed_apps := st.installed_apps ++ added, is_loading := true } : RegState).plugins = firstFailing st.plugins from rfl, hff]
          constructor
          · intro st' host' h
            rw [hcase, Except.ok.injEq, Prod.mk.injEq] at h
            obtain ⟨h1, h2⟩ := h
            subst h1; subst h2
            exact ⟨rfl, rfl, rfl, rfl, Or.inr rfl, rfl, rfl, rfl, added, rfl, rfl, hmem⟩
          · intro q stE hostE h
            rw [hcase] at h
            exact Except.noConfusion h
        | some q0 =>
          have hcase : activateApp env force st host =
              .error (q0, { st with installed_apps := st.installed_apps ++ added, is_loading := true }, { host with installedApps := host.installedApps ++ added }) := by
            simp only [activateApp, hfold]
            rw [if_pos hg, if_pos hch, if_neg hal]
            simp only [reloadApps, firstFailingApp]
            rw [show firstFailing ({ st with installed_apps := st.installed_apps ++ added, is_loading := true } : RegState).plugins = firstFailing st.plugins from rfl, hff]
          constructor
          · intro st' host' h
            rw [hcase] at h
            exact Except.noConfusion h
          · intro q stE hostE h
            rw [hcase, Except.error.injEq, Prod.mk.injEq, Prod.mk.injEq] at h
            obtain ⟨h1, h2, h3⟩ := h
            subst h2; subst h3
            exact ⟨rfl, rfl, hg, rfl, rfl⟩
    · have hcase : activateApp env force st host =
          .ok ({ st with installed_apps := st.installed_apps ++ added }, { host with installedApps := host.installedApps ++ added }) := by
        simp only [activateApp, hfold]
        rw [if_pos hg, if_neg hch]
      constructor
      · intro st' host' h
        rw [hcase, Except.ok.injEq, Prod.mk.injEq] at h
        obtain ⟨h1, h2⟩ := h
        subst h1; subst h2
        exact ⟨rfl, rfl, rfl, rfl, Or.inl rfl, rfl, rfl, rfl, added, rfl, rfl, hmem⟩
      · intro q stE hostE h
        rw [hcase] at h
        exact Except.noConfusion h
  · have hcase : activateApp env force st host = .ok (st, host) := by
      simp only [activateApp]
      rw [if_neg hg]
    constructor
    · intro st' host' h
      rw [hcase, Except.ok.injEq, Prod.mk.injEq] at h
      obtain ⟨h1, h2⟩ := h
      subst h1; subst h2
      exact ⟨rfl, rfl, rfl, rfl, Or.inl rfl, rfl, rfl, rfl, [], by simp, by simp, by simp⟩
    · intro q stE hostE h
      rw [hcase] at h
      exact Except.noConfusion h

theorem activatePlugins_inv (env : Env) (force : Bool) (st : RegState) (host : Host) :
    (∀ st' host', activatePlugins env force st host = .ok (st', host') →
      st'.plugins = st.plugins ∧ st'.plugins_inactive = st.plugins_inactive ∧
      st'.plugin_modules = st.plugin_modules ∧
      (st'.is_loading = st.is_loading ∨ st'.is_loading = false) ∧
      host'.configStore = host.configStore ∧
      host'.maintenance = host.maintenance ∧
      ∃ added, st'.installed_apps = st.installed_apps ++ added ∧
        host'.installedApps = host.installedApps ++ added ∧
        (∀ a ∈ added, a ∉ host.installedApps ∧
          ∃ sp ∈ st.plugins, sp.2.mod.hasApp = true ∧ a = getPluginPath sp.2)) ∧
    (∀ q stE hostE, activatePlugins env force st host = .error (q, stE, hostE) →
      stE.plugin_modules = st.plugin_modules ∧ stE.is_loading = true ∧
      (env.pluginTesting || env.enablePluginsApp) = true ∧
      hostE.configStore = host.configStore ∧
      hostE.maintenance = host.maintenance) := by
  obtain ⟨sch, hsch⟩ := activateSchedule_host env (activateSettings st) host
  have hun : activatePlugins env force st host =
      activateApp env force (activateSettings st) { host with schedules := sch } := by
    show (let st1 := activateSettings st
      let host1 := activateSchedule env st1 host
      activateApp env force st1 host1) = _
    simp only
    rw [hsch]
  have hQ := activateApp_inv env force (activateSettings st) { host with schedules := sch }
  constructor
  · intro st' host' h
    rw [hun] at h
    obtain ⟨h1, h2, h3, h4, h5, h6, h7, h8, added, ha1, ha2, ha3⟩ := hQ.1 st' host' h
    exact ⟨h1, h2, h3, h5, h6, h8, added, ha1, ha2, ha3⟩
  · intro q stE hostE h
    rw [hun] at h
    obtain ⟨h1, h2, h3, h4, h5⟩ := hQ.2 q stE hostE h
    exact ⟨h1, h2, h3, h4, h5⟩

theorem loadPass_inv (env : Env) (b : Option String) (st : RegState) (host : Host) :
    (∀ st' host', loadPass env b st host = .ok (st', host') →
      st'.plugin_modules = st.plugin_modules ∧
      (st'.is_loading = st.is_loading ∨ st'.is_loading = false)) ∧
    (∀ q stE hostE, loadPass env b st host = .error (q, stE, hostE) →
      stE.plugin_modules = st.plugin_modules ∧
      (stE.is_loading = st.is_loading ∨
        (env.pluginTesting || env.enablePluginsApp) = true)) := by
  unfold loadPass initPluginsAll
  cases hi : initPlugins env b st.plugin_modules st host with
  | error e =>
    obtain ⟨path0, stE0, hostE0⟩ := e
    have hfr := (initPlugins_frames env b st.plugin_modules st host).2
      path0 stE0 hostE0 hi
    constructor
    · intro st' host' h
      exact Except.noConfusion h
    · intro q stE hostE h
      simp only [Except.error.injEq, Prod.mk.injEq] at h
      obtain ⟨h1, h2, h3⟩ := h
      subst h2; subst h3
      exact ⟨hfr.1.1, Or.inl hfr.1.2.1⟩
  | ok p =>
    have hfr := (initPlugins_frames env b st.plugin_modules st host).1 p.1 p.2 hi
    have hQ := activatePlugins_inv env false p.1 p.2
    constructor
    · intro st' host' h
      obtain ⟨h1, h2, h3, h4, h5, h6, _⟩ := hQ.1 st' host' h
      refine ⟨by rw [h3]; exact hfr.1.1, ?_⟩
      rcases h4 with h4 | h4
      · exact Or.inl (by rw [h4]; exact hfr.1.2.1)
      · exact Or.inr h4
    · intro q stE hostE h
      obtain ⟨h1, h2, h3, h4, h5⟩ := hQ.2 q stE hostE h
      exact ⟨by rw [h1]; exact hfr.1.1, Or.inr h3⟩

theorem loadOnce_inl_spec (env : Env) (b : Option String) (st : RegState)
    (host : Host) (out : LoadOutcome)
    (h : loadOnce env b st host = .inl out) :
    out.exhausted = false ∧ out.failures ≤ 1 ∧
    (∀ st' host', out.result = .ok (st', host') →
      st'.plugin_modules = st.plugin_modules ∧
      (st'.is_loading = st.is_loading ∨ st'.is_loading = false)) := by
  unfold loadOnce at h
  cases hp : loadPass env b st host with
  | ok q =>
    simp only [hp, Sum.inl.injEq] at h
    subst h
    refine ⟨rfl, by simp, ?_⟩
    intro st' host' hr
    simp only [Except.ok.injEq] at hr
    have : q = (st', host') := hr
    exact (loadPass_inv env b st host).1 st' host' (by rw [hp, this])
  | error e =>
    obtain ⟨path0, stE0, hostE0⟩ := e
    simp only [hp] at h
    cases ha : afterFailure env path0 stE0 hostE0 with
    | ok p2 =>
      simp only [ha] at h
      exact Sum.noConfusion h
    | error e2 =>
      simp only [ha, Sum.inl.injEq] at h
      subst h
      refine ⟨rfl, by simp, ?_⟩
      intro st' host' hr
      exact Except.noConfusion hr

theorem loadOnce_inr_spec (env : Env) (b : Option String) (st : RegState)
    (host : Host) (p : String × RegState × Host)
    (h : loadOnce env b st host = .inr p) :
    p.2.1.plugins = [] ∧ p.2.1.plugins_inactive = [] ∧
    p.2.1.installed_apps = [] ∧
    p.2.1.plugin_modules = st.plugin_modules ∧
    (p.2.1.is_loading = st.is_loading ∨ p.2.1.is_loading = false) := by
  unfold loadOnce at h
  cases hp : loadPass env b st host with
  | ok q =>
    simp only [hp] at h
    exact Sum.noConfusion h
  | error e =>
    obtain ⟨path0, stE0, hostE0⟩ := e
    simp only [hp] at h
    cases ha : afterFailure env path0 stE0 hostE0 with
    | error e2 =>
      simp only [ha] at h
      exact Sum.noConfusion h
    | ok p2 =>
      simp only [ha, Sum.inr.injEq] at h
      subst h
      obtain ⟨st2, host2, heq, c1, c2, c3, c4, c5, c6, c7, c8, c9, c10, c11⟩ :=
        afterFailure_spec env path0 stE0 hostE0
      rw [heq] at ha
      simp only [Except.ok.injEq] at ha
      have hpass := (loadPass_inv env b st host).2 path0 stE0 hostE0 hp
      subst ha
      refine ⟨c1, c2, c3, by rw [c4]; exact hpass.1, ?_⟩
      rcases hpass.2 with hl | hg
      · rcases c6 with h6 | h6
        · exact Or.inl (by rw [h6, hl])
        · exact Or.inr h6
      · exact Or.inr (c7 hg)

theorem loadLoop_failures_le (env : Env) :
    ∀ c (b : Option String) (st : RegState) (host : Host),
      (loadLoop env c b st host).failures ≤ max c 1 := by
  intro c
  induction c using Nat.strong_induction_on with
  | _ c ih =>
    match c with
    | 0 =>
      intro b st host
      simp only [loadLoop]
      cases h0 : loadOnce env b st host with
      | inl out =>
        have := (loadOnce_inl_spec env b st host out h0).2.1
        simpa using this
      | inr p => simp
    | 1 =>
      intro b st host
      simp only [loadLoop]
      cases h0 : loadOnce env b st host with
      | inl out =>
        have := (loadOnce_inl_spec env b st host out h0).2.1
        simpa using this
      | inr p => simp
    | (k + 2) =>
      intro b st host
      simp only [loadLoop]
      cases h0 : loadOnce env b st host with
      | inl out =>
        have := (loadOnce_inl_spec env b st host out h0).2.1
        simp only
        omega
      | inr p =>
        simp only
        have := ih (k + 1) (by omega) (some p.1) p.2.1 p.2.2
        simp only [Nat.max_eq_left (by omega : 1 ≤ k + 1)] at this
        simp only [Nat.max_eq_left (by omega : 1 ≤ k + 2)]
        omega

theorem loadLoop_exhausted_spec (env : Env) :
    ∀ c (b : Option String) (st : RegState) (host : Host),
      (loadLoop env c b st host).exhausted = true →
      ∃ st' host', (loadLoop env c b st host).result = .ok (st', host') ∧
        st'.plugins = [] ∧ st'.plugins_inactive = [] := by
  intro c
  induction c using Nat.strong_induction_on with
  | _ c ih =>
    match c with
    | 0 =>
      intro b st host hx
      cases h0 : loadOnce env b st host with
      | inl out =>
        simp only [loadLoop, h0] at hx
        exact absurd hx (by simp [(loadOnce_inl_spec env b st host out h0).1])
      | inr p =>
        simp only [loadLoop, h0] at hx ⊢
        obtain ⟨c1, c2, _⟩ := loadOnce_inr_spec env b st host p h0
        exact ⟨p.2.1, p.2.2, rfl, c1, c2⟩
    | 1 =>
      intro b st host hx
      cases h0 : loadOnce env b st host with
      | inl out =>
        simp only [loadLoop, h0] at hx
        exact absurd hx (by simp [(loadOnce_inl_spec env b st host out h0).1])
      | inr p =>
        simp only [loadLoop, h0] at hx ⊢
        obtain ⟨c1, c2, _⟩ := loadOnce_inr_spec env b st host p h0
        exact ⟨p.2.1, p.2.2, rfl, c1, c2⟩
    | (k + 2) =>
      intro b st host hx
      cases h0 : loadOnce env b st host with
      | inl out =>
        simp only [loadLoop, h0] at hx
        exact absurd hx (by simp [(loadOnce_inl_spec env b st host out h0).1])
      | inr p =>
        simp only [loadLoop, h0] at hx ⊢
        exact ih (k + 1) (by omega) (some p.1) p.2.1 p.2.2 hx

theorem loadLoop_ok_inv (env : Env) :
    ∀ c (b : Option String) (st : RegState) (host : Host) st' host',
      (loadLoop env c b st host).result = .ok (st', host') →
      st'.plugin_modules = st.plugin_modules ∧
      (st'.is_loading = st.is_loading ∨ st'.is_loading = false) := by
  intro c
  induction c using Nat.strong_induction_on with
  | _ c ih =>
    match c with
    | 0 =>
      intro b st host st' host' hr
      cases h0 : loadOnce env b st host with
      | inl out =>
        simp only [loadLoop, h0] at hr
        exact (loadOnce_inl_spec env b st host out h0).2.2 st' host' hr
      | inr p =>
        simp only [loadLoop, h0, Except.ok.injEq, Prod.mk.injEq] at hr
        obtain ⟨c1, c2, c3, c4, c5⟩ := loadOnce_inr_spec env b st host p h0
        obtain ⟨h1, h2⟩ := hr
        subst h1; subst h2
        exact ⟨c4, c5⟩
    | 1 =>
      intro b st host st' host' hr
      cases h0 : loadOnce env b st host with
      | inl out =>
        simp only [loadLoop, h0] at hr
        exact (loadOnce_inl_spec env b st host out h0).2.2 st' host' hr
      | inr p =>
        simp only [loadLoop, h0, Except.ok.injEq, Prod.mk.injEq] at hr
        obtain ⟨c1, c2, c3, c4, c5⟩ := loadOnce_inr_spec env b st host p h0
        obtain ⟨h1, h2⟩ := hr
        subst h1; subst h2
        exact ⟨c4, c5⟩
    | (k + 2) =>
      intro b st host st' host' hr
      cases h0 : loadOnce env b st host with
      | inl out =>
        simp only [loadLoop, h0] at hr
        exact (loadOnce_inl_spec env b st host out h0).2.2 st' host' hr
      | inr p =>
        simp only [loadLoop, h0] at hr
        obtain ⟨c1, c2, c3, c4, c5⟩ := loadOnce_inr_spec env b st host p h0
        obtain ⟨h1, h2⟩ := ih (k + 1) (by omega) (some p.1) p.2.1 p.2.2 st' host' hr
        refine ⟨by rw [h1, c4], ?_⟩
        rcases h2 with h2 | h2
        · rcases c5 with c5 | c5
          · exact Or.inl (by rw [h2, c5])
          · exact Or.inr (by rw [h2, c5])
        · exact Or.inr h2

theorem loadPlugins_exhausted_spec (env : Env) (st : RegState) (host : Host)
    (hx : (loadPlugins env st host).exhausted = true) :
    ∃ st' host', (loadPlugins env st host).result = .ok (st', host') ∧
      st'.plugins = [] ∧ st'.plugins_inactive = [] := by
  have key := loadLoop_exhausted_spec env env.pluginRetry none st
    (if host.maintenance then host else { host with maintenance := true })
  simp only [loadPlugins] at hx ⊢
  cases hres : (loadLoop env env.pluginRetry none st
      (if host.maintenance then host else { host with maintenance := true })).result with
  | ok p =>
    simp only [hres] at hx ⊢
    obtain ⟨st', h', hres2, hp1, hp2⟩ := key hx
    rw [hres] at hres2
    simp only [Except.ok.injEq] at hres2
    refine ⟨p.1, _, rfl, ?_, ?_⟩
    · rw [show p.1 = st' from congrArg Prod.fst hres2]
      exact hp1
    · rw [show p.1 = st' from congrArg Prod.fst hres2]
      exact hp2
  | error e =>
    simp only [hres] at hx ⊢
    obtain ⟨st', h', hres2, -, -⟩ := key hx
    rw [hres] at hres2
    exact Except.noConfusion hres2

theorem loadPlugins_ok_inv (env : Env) (st : RegState) (host : Host)
    (st' : RegState) (h' : Host)
    (h : (loadPlugins env st host).result = .ok (st', h')) :
    st'.plugin_modules = st.plugin_modules ∧
    (st'.is_loading = st.is_loading ∨ st'.is_loading = false) := by
  simp only [loadPlugins] at h
  cases hres : (loadLoop env env.pluginRetry none st
      (if host.maintenance then host else { host with maintenance := true })).result with
  | ok p =>
    simp only [hres, Except.ok.injEq, Prod.mk.injEq] at h
    obtain ⟨h1, -⟩ := h
    subst h1
    exact loadLoop_ok_inv env env.pluginRetry none st
      (if host.maintenance then host else { host with maintenance := true })
      p.1 p.2 (by rw [hres])
  | error e =>
    simp only [hres] at h
    exact Except.noConfusion h

/-! ## Supporting lemmas: prefixes and schedule reconciliation -/

theorem isPrefixOfList_map (f : Char → Char) :
    ∀ p s, isPrefixOfList p s = true →
      isPrefixOfList (p.map f) (s.map f) = true := by
  intro p
  induction p with
  | nil => intro s _; rfl
  | cons a as ih =>
    intro s h
    cases s with
    | nil => simp [isPrefixOfList] at h
    | cons b bs =>
      simp only [isPrefixOfList, Bool.and_eq_true, decide_eq_true_eq] at h
      obtain ⟨h1, h2⟩ := h
      simp only [List.map_cons, isPrefixOfList, Bool.and_eq_true, decide_eq_true_eq]
      exact ⟨by rw [h1], ih bs h2⟩

theorem istartswith_mono {t : String}
    (h : isPrefixOfList "plugin.".data t.data = true) :
    istartswithPluginDot t = true := by
  have := isPrefixOfList_map Char.toLower "plugin.".data t.data h
  rw [show ("plugin.".data.map Char.toLower) = "plugin.".data from by decide] at this
  exact this

theorem schedFold_keys_sub (l : List (String × PluginInstance))
    (acc : List String × Host)
    (hinv : ∀ k ∈ acc.1, k ∈ acc.2.schedules) :
    ∀ k ∈ (l.foldl schedFoldStep acc).1, k ∈ (l.foldl schedFoldStep acc).2.schedules := by
  induction l generalizing acc with
  | nil => exact hinv
  | cons hd tl ih =>
    rw [List.foldl_cons]
    refine ih (schedFoldStep acc hd) ?_
    intro k hk
    by_cases h1 : hd.2.mod.hasSchedule = true
    · cases hc : configByKey hd.2.slug acc.2.configStore with
      | none =>
        simp only [schedFoldStep, h1, hc] at hk ⊢
        exact hinv k hk
      | some cfg =>
        by_cases ha : cfg.active = true
        · simp only [schedFoldStep, h1, hc, ha, if_true, List.mem_append] at hk ⊢
          rcases hk with h2 | h2
          · exact Or.inl (hinv k h2)
          · by_cases h3 : k ∈ acc.2.schedules
            · exact Or.inl h3
            · refine Or.inr ?_
              rw [List.mem_filter]
              exact ⟨h2, by simpa using h3⟩
        · have ha2 : cfg.active = false := by
            revert ha; cases cfg.active <;> simp
          simp only [schedFoldStep, h1, hc, ha2] at hk ⊢
          exact hinv k hk
    · have h2 : hd.2.mod.hasSchedule = false := by
        revert h1; cases hd.2.mod.hasSchedule <;> simp
      simp only [schedFoldStep, h2] at hk ⊢
      exact hinv k hk

/-! ## Supporting lemmas: discovery -/

theorem collectDirs_ok (dirs : List DirSource)
    (hok : ∀ d ∈ dirs, d.importOk = true) :
    ∀ acc, ∃ mods, collectDirs dirs acc = .ok mods ∧
      (∀ m ∈ acc, m ∈ mods) ∧
      (∀ d ∈ dirs, ∀ m ∈ d.found, m ∈ mods) := by
  induction dirs with
  | nil => exact fun acc => ⟨acc, rfl, fun m hm => hm, by simp⟩
  | cons hd tl ih =>
    intro acc
    obtain ⟨mods, h1, h2, h3⟩ := ih
      (fun d hd => hok d (List.mem_cons_of_mem _ hd)) (acc ++ hd.found)
    refine ⟨mods, ?_, ?_, ?_⟩
    · simp only [collectDirs, if_pos (hok hd (List.mem_cons_self _ _))]
      exact h1
    · intro m hm
      exact h2 m (List.mem_append.mpr (Or.inl hm))
    · intro d hdm m hm
      rcases List.mem_cons.mp hdm with h4 | h4
      · exact h2 m (List.mem_append.mpr (Or.inr (h4 ▸ hm)))
      · exact h3 d h4 m hm

theorem collectDirs_fail (pre : List DirSource) (dbad : DirSource)
    (rest : List DirSource)
    (hok : ∀ d ∈ pre, d.importOk = true) (hbad : dbad.importOk = false) :
    ∀ acc, collectDirs (pre ++ dbad :: rest) acc = .error dbad.modName := by
  induction pre with
  | nil =>
    intro acc
    simp [collectDirs, hbad]
  | cons hd tl ih =>
    intro acc
    simp only [List.cons_append, collectDirs,
      if_pos (hok hd (List.mem_cons_self _ _))]
    exact ih (fun d hd => hok d (List.mem_cons_of_mem _ hd)) (acc ++ hd.found)

theorem collectEntries_spec (eps : List EntryPoint) :
    ∀ acc errs,
      (∀ m ∈ acc, m ∈ (collectEntries eps acc errs).1) ∧
      (∀ e ∈ eps, e.loadOk = true →
        { e.plugin with isPackage := true } ∈ (collectEntries eps acc errs).1) ∧
      (∀ k, (k, "discovery") ∈ errs → (k, "discovery") ∈ (collectEntries eps acc errs).2) ∧
      (∀ e ∈ eps, e.loadOk = false →
        (e.epName, "discovery") ∈ (collectEntries eps acc errs).2) := by
  induction eps with
  | nil => exact fun acc errs => ⟨fun m hm => hm, by simp, fun k hk => hk, by simp⟩
  | cons hd tl ih =>
    intro acc errs
    by_cases h1 : hd.loadOk = true
    · have step : collectEntries (hd :: tl) acc errs =
          collectEntries tl (acc ++ [{ hd.plugin with isPackage := true }]) errs := by
        simp [collectEntries, h1]
      obtain ⟨c1, c2, c3, c4⟩ := ih (acc ++ [{ hd.plugin with isPackage := true }]) errs
      refine ⟨?_, ?_, ?_, ?_⟩
      · intro m hm
        rw [step]
        exact c1 m (List.mem_append.mpr (Or.inl hm))
      · intro e he hl
        rw [step]
        rcases List.mem_cons.mp he with h2 | h2
        · exact c1 _ (List.mem_append.mpr (Or.inr (by simp [h2])))
        · exact c2 e h2 hl
      · intro k hk
        rw [step]
        exact c3 k hk
      · intro e he hl
        rw [step]
        rcases List.mem_cons.mp he with h2 | h2
        · exact absurd (h2 ▸ hl) (by simp [h1])
        · exact c4 e h2 hl
    · have h1f : hd.loadOk = false := by
        revert h1; cases hd.loadOk <;> simp
      have step : collectEntries (hd :: tl) acc errs =
          collectEntries tl acc (dictInsert hd.epName "discovery" errs) := by
        simp [collectEntries, h1f]
      obtain ⟨c1, c2, c3, c4⟩ := ih acc (dictInsert hd.epName "discovery" errs)
      refine ⟨?_, ?_, ?_, ?_⟩
      · intro m hm
        rw [step]
        exact c1 m hm
      · intro e he hl
        rw [step]
        rcases List.mem_cons.mp he with h2 | h2
        · exact absurd (h2 ▸ hl) (by simp [h1f])
        · exact c2 e h2 hl
      · intro k hk
        rw [step]
        exact c3 k (mem_dictInsert_same_val hd.epName hk)
      · intro e he hl
        rw [step]
        rcases List.mem_cons.mp he with h2 | h2
        · subst h2
          exact c3 _ (self_mem_dictInsert _ _ _)
        · exact c4 e h2 hl

/-! ## Supporting lemmas: composing full `load_plugins` runs -/

theorem loadLoop_of_inl (env : Env) (b : Option String) (st : RegState)
    (h : Host) (out : LoadOutcome)
    (honce : loadOnce env b st h = .inl out) :
    ∀ k, loadLoop env k b st h = out := by
  intro k
  match k with
  | 0 => simp only [loadLoop, honce]
  | 1 => simp only [loadLoop, honce]
  | c + 2 => simp only [loadLoop, honce]

theorem loadPlugins_failures (env : Env) (st : RegState) (host : Host) :
    (loadPlugins env st host).failures =
      (loadLoop env env.pluginRetry none st
        (if host.maintenance then host
         else { host with maintenance := true })).failures := by
  simp only [loadPlugins]
  cases hres : (loadLoop env env.pluginRetry none st
      (if host.maintenance then host
       else { host with maintenance := true })).result with
  | ok p => rfl
  | error e => rfl

theorem loadPlugins_result_of_loop (env : Env) (st : RegState) (host : Host)
    (st' : RegState) (h' : Host)
    (h : (loadLoop env env.pluginRetry none st
      (if host.maintenance then host
       else { host with maintenance := true })).result = .ok (st', h')) :
    (loadPlugins env st host).result =
      .ok (st', if host.maintenance then h'
        else { h' with maintenance := false }) := by
  simp only [loadPlugins]
  rw [h]

/-- The first pass of a load in which exactly one discovered plugin `f`
raises — at instantiation, or (with the app mixin enabled) at app import
during activation: the pass fails with `f`'s module path, the handler
cleans the registry, and the loop is handed the cleaned state with `f`'s
path blocked. -/
theorem loadOnce_one_fail (env : Env) (st : RegState) (host : Host)
    (f : PluginModule) (pre post : List PluginModule)
    (hsplit : st.plugin_modules = pre ++ f :: post)
    (hclean : ∀ m ∈ st.plugin_modules, m ≠ f → cleanMod m)
    (hfail : f.failsInit = true ∨
      (f.failsInit = false ∧ f.hasApp = true ∧ f.failsActivation = true ∧
        env.enablePluginsApp = true ∧
        getPluginPath (mkInstance f) ∉ host.installedApps))
    (hT : env.pluginTesting = false)
    (hs : ∀ m ∈ st.plugin_modules,
      findConfig (plugKey m) m.pluginName host.configStore = some (cfgOf m true))
    (hinj : ∀ m ∈ st.plugin_modules, plugKey m = plugKey f → m = f)
    (hpre : f ∉ pre)
    (hp0 : st.plugins = []) :
    ∃ st2 host2, loadOnce env none st host = .inr (errorPath f, st2, host2) ∧
      st2.plugins = [] ∧ st2.plugins_inactive = [] ∧
      st2.installed_apps = [] ∧ st2.plugin_modules = st.plugin_modules ∧
      host2.configStore = host.configStore := by
  have hfmem : f ∈ st.plugin_modules := by
    rw [hsplit]
    exact List.mem_append_right _ (List.mem_cons_self _ _)
  rcases hfail with hfi | ⟨hfi0, hha, hfa, hgA, hpath⟩
  · -- instantiation failure: `_init_plugins` raises at `f`
    obtain ⟨stA, heqA, hplA, hinA, hksA, hksiA, hmonoA, hmonoiA,
        hf1, hf2, hf3, hf4, hf5, hf6⟩ :=
      initPlugins_clean env none (fun _ => true) pre st host
        (fun m hm => hs m (by rw [hsplit]; exact List.mem_append_left _ hm))
        (fun m hm dd hdd => Option.noConfusion hdd)
        (fun m hm _ => (hclean m (by rw [hsplit]; exact List.mem_append_left _ hm)
          (fun he => hpre (he ▸ hm))).1)
    have hstep : initOne env none f stA host =
        .error (errorPath f,
          { stA with errors := dictInsert (errorPath f) "init" stA.errors },
          host) :=
      initOne_fail env none f stA host true
        (fun dd hdd => Option.noConfusion hdd) (hs f hfmem) (by simp) hfi
    have hinit : initPluginsAll env none st host =
        .error (errorPath f,
          { stA with errors := dictInsert (errorPath f) "init" stA.errors },
          host) := by
      unfold initPluginsAll
      rw [hsplit, initPlugins_append env none pre (f :: post) st host, heqA]
      show initPlugins env none (f :: post) stA host = _
      simp only [initPlugins, hstep]
    have hlp : loadPass env none st host =
        .error (errorPath f,
          { stA with errors := dictInsert (errorPath f) "init" stA.errors },
          host) := by
      unfold loadPass
      rw [hinit]
    obtain ⟨st2, host2, heqAF, a1, a2, a3, a4, a5, a6, a7, a8, a9, a10, a11⟩ :=
      afterFailure_spec env (errorPath f)
        { stA with errors := dictInsert (errorPath f) "init" stA.errors } host
    refine ⟨st2, host2, ?_, a1, a2, a3, ?_, a8⟩
    · simp only [loadOnce, hlp, heqAF]
    · rw [a4]
      exact hf1
  · -- activation failure: the pass raises inside the forced app reload
    obtain ⟨stA, heqA, hplA, hinA, hksA, hksiA, hmonoA, hmonoiA,
        hf1, hf2, hf3, hf4, hf5, hf6⟩ :=
      initPlugins_clean env none (fun _ => true) st.plugin_modules st host
        (fun m hm => hs m hm)
        (fun m hm dd hdd => Option.noConfusion hdd)
        (fun m hm _ => by
          by_cases hmf : m = f
          · rw [hmf]; exact hfi0
          · exact (hclean m hm hmf).1)
    have heqA' : initPluginsAll env none st host = .ok (stA, host) := heqA
    have hfA : (plugKey f, mkInstance f) ∈ stA.plugins := by
      have hkf : plugKey f ∈ dictKeys stA.plugins :=
        hksA f hfmem (by simp [attempted])
      obtain ⟨v, hv⟩ := mem_dictKeys.mp hkf
      rcases hplA (plugKey f, v) hv with h0 | ⟨m, hm, -, hxv⟩
      · rw [hp0] at h0
        simp at h0
      · obtain ⟨hk1, hv1⟩ := Prod.mk.injEq .. ▸ hxv
        have hmf : m = f := hinj m hm hk1.symm
        rw [hv1, hmf] at hv
        exact hv
    have hff : firstFailing stA.plugins = some (errorPath f) := by
      apply firstFailing_eq_some
      · exact ⟨(plugKey f, mkInstance f), hfA, by simp [mkInstance, hha, hfa]⟩
      · intro sp hsp hflag
        rcases hplA sp hsp with h0 | ⟨m, hm, -, hxv⟩
        · rw [hp0] at h0
          simp at h0
        · rw [hxv] at hflag ⊢
          simp only [mkInstance] at hflag ⊢
          by_cases hmf : m = f
          · rw [hmf]
          · rw [(hclean m hm hmf).2] at hflag
            simp at hflag
    obtain ⟨stE, hostE, added, heqE, e1, e2, e3, e4, e5, e6, e7, e8, e9,
        e10, e11⟩ :=
      activatePlugins_error env false stA host (errorPath f)
        (by simp [hT, hgA]) hff
        (Or.inl ⟨(plugKey f, mkInstance f), hfA, by simp [mkInstance, hha],
          by simpa using hpath⟩)
    have hlp : loadPass env none st host = .error (errorPath f, stE, hostE) := by
      unfold loadPass
      rw [heqA']
      exact heqE
    obtain ⟨st2, host2, heqAF, a1, a2, a3, a4, a5, a6, a7, a8, a9, a10, a11⟩ :=
      afterFailure_spec env (errorPath f) stE hostE
    refine ⟨st2, host2, ?_, a1, a2, a3, ?_, ?_⟩
    · simp only [loadOnce, hlp, heqAF]
    · rw [a4, e3]
      exact hf1
    · rw [a8, e7]

/-- A load pass retried with plugin `f`'s module path blocked: `f` is
quarantined — recorded in the inactive map with its persisted config saved
as `active = False` — while every other (clean, enabled) plugin is
instantiated into the active map, and activation completes. -/
theorem loadPass_quarantine (env : Env) (f : PluginModule)
    (pre post : List PluginModule) (st : RegState) (host : Host)
    (hsplit : st.plugin_modules = pre ++ f :: post)
    (hclean : ∀ m ∈ st.plugin_modules, m ≠ f → cleanMod m)
    (hpre : f ∉ pre) (hpost : f ∉ post)
    (hT : env.pluginTesting = false)
    (hs : ∀ m ∈ st.plugin_modules,
      findConfig (plugKey m) m.pluginName host.configStore = some (cfgOf m true))
    (hb : ∀ m ∈ st.plugin_modules,
      blockedMatches (errorPath f) m = true → m = f)
    (hinj : ∀ m ∈ st.plugin_modules, plugKey m = plugKey f → m = f)
    (hp0 : st.plugins = []) :
    ∃ st' host', loadPass env (some (errorPath f)) st host = .ok (st', host') ∧
      plugKey f ∈ dictKeys st'.plugins_inactive ∧
      plugKey f ∉ dictKeys st'.plugins ∧
      findConfig (plugKey f) f.pluginName host'.configStore =
        some (cfgOf f false) ∧
      (∀ m ∈ st.plugin_modules, m ≠ f → plugKey m ∈ dictKeys st'.plugins) := by
  have hfmem : f ∈ st.plugin_modules := by
    rw [hsplit]
    exact List.mem_append_right _ (List.mem_cons_self _ _)
  have hpremem : ∀ m ∈ pre, m ∈ st.plugin_modules := by
    intro m hm
    rw [hsplit]
    exact List.mem_append_left _ hm
  have hpostmem : ∀ m ∈ post, m ∈ st.plugin_modules := by
    intro m hm
    rw [hsplit]
    exact List.mem_append_right _ (List.mem_cons_of_mem _ hm)
  obtain ⟨stA, heqA, hplA, hinA, hksA, hksiA, hmonoA, hmonoiA,
      pf1, pf2, pf3, pf4, pf5, pf6⟩ :=
    initPlugins_clean env (some (errorPath f)) (fun _ => true) pre st host
      (fun m hm => hs m (hpremem m hm))
      (fun m hm dd hdd => by
        cases hdd
        cases hbm : blockedMatches (errorPath f) m
        · rfl
        · exact absurd ((hb m (hpremem m hm) hbm) ▸ hm) hpre)
      (fun m hm _ => (hclean m (hpremem m hm)
        (fun he => hpre (he ▸ hm))).1)
  have hq : initOne env (some (errorPath f)) f stA host =
      .ok ({ stA with plugins_inactive :=
          (dictInsert (plugKey f) (some (cfgOf f false)) stA.plugins_inactive) },
        { host with configStore := saveConfig (cfgOf f false) host.configStore }) :=
    initOne_quarantine env (errorPath f) f stA host hT
      (by simp [blockedMatches, errorPath]) (hs f hfmem)
  obtain ⟨stC, heqC, hplC, hinC, hksC, hksiC, hmonoC, hmonoiC,
      qf1, qf2, qf3, qf4, qf5, qf6⟩ :=
    initPlugins_clean env (some (errorPath f)) (fun _ => true) post
      { stA with plugins_inactive :=
          (dictInsert (plugKey f) (some (cfgOf f false)) stA.plugins_inactive) }
      { host with configStore := saveConfig (cfgOf f false) host.configStore }
      (fun m hm => by
        have hk : plugKey m ≠ (cfgOf f false).key := by
          intro he
          exact hpost ((hinj m (hpostmem m hm) he) ▸ hm)
        show findConfig (plugKey m) m.pluginName
          (saveConfig (cfgOf f false) host.configStore) = _
        rw [findConfig_saveConfig_ne hk]
        exact hs m (hpostmem m hm))
      (fun m hm dd hdd => by
        cases hdd
        cases hbm : blockedMatches (errorPath f) m
        · rfl
        · exact absurd ((hb m (hpostmem m hm) hbm) ▸ hm) hpost)
      (fun m hm _ => (hclean m (hpostmem m hm)
        (fun he => hpost (he ▸ hm))).1)
  have hinitAll : initPluginsAll env (some (errorPath f)) st host =
      .ok (stC, { host with configStore := (saveConfig (cfgOf f false) host.configStore) }) := by
    unfold initPluginsAll
    rw [hsplit, initPlugins_append env (some (errorPath f)) pre (f :: post)
      st host, heqA]
    show initPlugins env (some (errorPath f)) (f :: post) stA host = _
    simp only [initPlugins, hq]
    exact heqC
  have hnf : ∀ sp ∈ stC.plugins,
      (sp.2.mod.hasApp && sp.2.mod.failsActivation) = false := by
    intro sp hsp
    rcases hplC sp hsp with h0 | ⟨m, hm, -, hxv⟩
    · rcases hplA sp h0 with h1 | ⟨m, hm, -, hxv⟩
      · rw [hp0] at h1
        simp at h1
      · rw [hxv]
        simp only [mkInstance]
        rw [(hclean m (hpremem m hm) (fun he => hpre (he ▸ hm))).2]
        simp
    · rw [hxv]
      simp only [mkInstance]
      rw [(hclean m (hpostmem m hm) (fun he => hpost (he ▸ hm))).2]
      simp
  obtain ⟨st', host', added, heqAct, k1, k2, k3, k4, k5, k6, k7, k8, k9,
      k10, k11, k12⟩ :=
    activatePlugins_ok env false stC
      { host with configStore := saveConfig (cfgOf f false) host.configStore }
      hnf
  refine ⟨st', host', ?_, ?_, ?_, ?_, ?_⟩
  · unfold loadPass
    rw [hinitAll]
    exact heqAct
  · rw [k2]
    exact hmonoiC _ (mem_dictKeys_insert_self (plugKey f)
      (some (cfgOf f false)) stA.plugins_inactive)
  · rw [k1]
    intro hk
    obtain ⟨v, hv⟩ := mem_dictKeys.mp hk
    rcases hplC (plugKey f, v) hv with h0 | ⟨m, hm, -, hxv⟩
    · rcases hplA (plugKey f, v) h0 with h1 | ⟨m, hm, -, hxv⟩
      · rw [hp0] at h1
        simp at h1
      · obtain ⟨hk1, -⟩ := Prod.mk.injEq .. ▸ hxv
        exact hpre ((hinj m (hpremem m hm) hk1.symm) ▸ hm)
    · obtain ⟨hk1, -⟩ := Prod.mk.injEq .. ▸ hxv
      exact hpost ((hinj m (hpostmem m hm) hk1.symm) ▸ hm)
  · rw [k8]
    show findConfig (plugKey f) f.pluginName
      (saveConfig (cfgOf f false) host.configStore) = _
    exact @findConfig_saveConfig_self (cfgOf f false) (cfgOf f true)
      host.configStore (hs f hfmem)
  · intro m hm hne
    rw [k1]
    rw [hsplit] at hm
    rcases List.mem_append.mp hm with hm1 | hm2
    · exact hmonoC _ (hksA m hm1 (by simp [attempted]))
    · rcases List.mem_cons.mp hm2 with hmf | hm3
      · exact absurd hmf hne
      · exact hksC m hm3 (by simp [attempted])

/-- A full `load_plugins` run in which exactly one discovered plugin `f`
always raises: the run returns normally with `f` out of the active map;
when at least one retry is available (`PLUGIN_RETRY ≥ 2` attempts), `f` is
quarantined into the inactive map with its config persisted inactive while
every other plugin is loaded into the active map. -/
theorem loadPlugins_one_fail_spec (env : Env) (st : RegState) (host : Host)
    (f : PluginModule) (pre post : List PluginModule)
    (hsplit : st.plugin_modules = pre ++ f :: post)
    (hclean : ∀ m ∈ st.plugin_modules, m ≠ f → cleanMod m)
    (hpre : f ∉ pre) (hpost : f ∉ post)
    (hfail : f.failsInit = true ∨
      (f.failsInit = false ∧ f.hasApp = true ∧ f.failsActivation = true ∧
        env.enablePluginsApp = true ∧
        getPluginPath (mkInstance f) ∉ host.installedApps))
    (hT : env.pluginTesting = false)
    (hs : ∀ m ∈ st.plugin_modules,
      findConfig (plugKey m) m.pluginName host.configStore = some (cfgOf m true))
    (hb : ∀ m ∈ st.plugin_modules,
      blockedMatches (errorPath f) m = true → m = f)
    (hinj : ∀ m ∈ st.plugin_modules, plugKey m = plugKey f → m = f)
    (hp0 : st.plugins = []) :
    ∃ st' host', (loadPlugins env st host).result = .ok (st', host') ∧
      plugKey f ∉ dictKeys st'.plugins ∧
      (2 ≤ env.pluginRetry →
        plugKey f ∈ dictKeys st'.plugins_inactive ∧
        findConfig (plugKey f) f.pluginName host'.configStore =
          some (cfgOf f false) ∧
        ∀ m ∈ st.plugin_modules, m ≠ f → plugKey m ∈ dictKeys st'.plugins) := by
  have hcs1 : (if host.maintenance then host
      else { host with maintenance := true }).configStore = host.configStore := by
    cases host.maintenance <;> rfl
  have hia1 : (if host.maintenance then host
      else { host with maintenance := true }).installedApps = host.installedApps := by
    cases host.maintenance <;> rfl
  obtain ⟨st2, host2, honce, e1, e2, e3, e4, e5⟩ :=
    loadOnce_one_fail env st
      (if host.maintenance then host else { host with maintenance := true })
      f pre post hsplit hclean
      (by
        rcases hfail with h1 | ⟨h1, h2, h3, h4, h5⟩
        · exact Or.inl h1
        · exact Or.inr ⟨h1, h2, h3, h4, by rw [hia1]; exact h5⟩)
      hT
      (by intro m hm; rw [hcs1]; exact hs m hm)
      hinj hpre hp0
  rcases Nat.lt_or_ge env.pluginRetry 2 with hR | hR
  · -- no retry available: the loop breaks exhausted with the cleaned state
    have h01 : env.pluginRetry = 0 ∨ env.pluginRetry = 1 := by omega
    have hloop : loadLoop env env.pluginRetry none st
        (if host.maintenance then host else { host with maintenance := true }) =
        ⟨.ok (st2, host2), 1, true⟩ := by
      rcases h01 with h0 | h0 <;> rw [h0] <;> simp only [loadLoop, honce]
    refine ⟨st2, if host.maintenance then host2
      else { host2 with maintenance := false },
      loadPlugins_result_of_loop env st host st2 host2 (by rw [hloop]), ?_, ?_⟩
    · rw [e1]
      simp [dictKeys]
    · intro hR2
      omega
  · -- a retry remains: the blocked second pass quarantines `f`
    obtain ⟨c, hc⟩ : ∃ c, env.pluginRetry = c + 2 :=
      ⟨env.pluginRetry - 2, by omega⟩
    obtain ⟨st', host', hpass, c1, c2, c3, c4⟩ :=
      loadPass_quarantine env f pre post st2 host2
        (by rw [e4]; exact hsplit)
        (by rw [e4]; exact hclean)
        hpre hpost hT
        (by intro m hm; rw [e5, hcs1]; rw [e4] at hm; exact hs m hm)
        (by rw [e4]; exact hb)
        (by rw [e4]; exact hinj)
        e1
    have honce2 : loadOnce env (some (errorPath f)) st2 host2 =
        .inl ⟨.ok (st', host'), 0, false⟩ := by
      simp only [loadOnce, hpass]
    have hrest : loadLoop env (c + 1) (some (errorPath f)) st2 host2 =
        ⟨.ok (st', host'), 0, false⟩ :=
      loadLoop_of_inl env (some (errorPath f)) st2 host2 _ honce2 (c + 1)
    have hloop : loadLoop env env.pluginRetry none st
        (if host.maintenance then host else { host with maintenance := true }) =
        ⟨.ok (st', host'), 1, false⟩ := by
      rw [hc]
      simp only [loadLoop, honce, hrest]
    have hcsF : (if host.maintenance then host'
        else { host' with maintenance := false }).configStore =
        host'.configStore := by
      cases host.maintenance <;> rfl
    refine ⟨st', if host.maintenance then host'
      else { host' with maintenance := false },
      loadPlugins_result_of_loop env st host st' host' (by rw [hloop]), c2, ?_⟩
    intro _
    exact ⟨c1, by rw [hcsF]; exact c3, by rw [← e4]; exact c4⟩

/-! ## Supporting lemmas: map disjointness and `unload_plugins` -/

/-- A completed `_init_plugins` pass over slug-distinct, duplicate-free
modules keeps the active and inactive key sets disjoint: each module's key
is inserted into exactly one of the two maps. -/
theorem initPlugins_disjoint (env : Env) (d : Option String) :
    ∀ (mods : List PluginModule) (st : RegState) (host : Host)
      (st' : RegState) (host' : Host),
      initPlugins env d mods st host = .ok (st', host') →
      mods.Nodup →
      (∀ m ∈ mods, ∀ m' ∈ mods, plugKey m = plugKey m' → m = m') →
      (∀ k, k ∈ dictKeys st.plugins → k ∉ dictKeys st.plugins_inactive) →
      (∀ m ∈ mods, plugKey m ∉ dictKeys st.plugins ∧
        plugKey m ∉ dictKeys st.plugins_inactive) →
      ∀ k, k ∈ dictKeys st'.plugins → k ∉ dictKeys st'.plugins_inactive := by
  intro mods
  induction mods with
  | nil =>
    intro st host st' host' h _ _ hdisj _
    simp only [initPlugins, Except.ok.injEq, Prod.mk.injEq] at h
    obtain ⟨h1, h2⟩ := h
    subst h1
    exact hdisj
  | cons hd tl ih =>
    intro st host st' host' h hnd hinj hdisj hfresh
    obtain ⟨hhd, hndtl⟩ := List.nodup_cons.mp hnd
    have hinjtl : ∀ m ∈ tl, ∀ m' ∈ tl, plugKey m = plugKey m' → m = m' :=
      fun m hm m' hm' => hinj m (List.mem_cons_of_mem _ hm)
        m' (List.mem_cons_of_mem _ hm')
    rcases initOne_cases env d hd st host with
      ⟨cs, hcase⟩ | ⟨cs, hcase⟩ | ⟨cs, v, hcase⟩
    · simp only [initPlugins, hcase] at h
      exact Except.noConfusion h
    · -- `hd` stored in the active map
      simp only [initPlugins, hcase] at h
      apply ih _ _ _ _ h hndtl hinjtl
      · intro k hk
        rcases mem_dictKeys_insert_elim hk with h1 | h2
        · subst h1
          exact (hfresh hd (List.mem_cons_self _ _)).2
        · exact hdisj k h2
      · intro m hm
        constructor
        · intro hk
          rcases mem_dictKeys_insert_elim hk with h1 | h2
          · exact hhd ((hinj m (List.mem_cons_of_mem _ hm)
              hd (List.mem_cons_self _ _) h1) ▸ hm)
          · exact (hfresh m (List.mem_cons_of_mem _ hm)).1 h2
        · exact (hfresh m (List.mem_cons_of_mem _ hm)).2
    · -- `hd` recorded in the inactive map
      simp only [initPlugins, hcase] at h
      apply ih _ _ _ _ h hndtl hinjtl
      · intro k hk hki
        rcases mem_dictKeys_insert_elim hki with h1 | h2
        · exact (hfresh hd (List.mem_cons_self _ _)).1 (h1 ▸ hk)
        · exact hdisj k hk h2
      · intro m hm
        constructor
        · exact (hfresh m (List.mem_cons_of_mem _ hm)).1
        · intro hk
          rcases mem_dictKeys_insert_elim hk with h1 | h2
          · exact hhd ((hinj m (List.mem_cons_of_mem _ hm)
              hd (List.mem_cons_self _ _) h1) ▸ hm)
          · exact (hfresh m (List.mem_cons_of_mem _ hm)).2 h2

theorem disjointViolation_eq_false (s : RegState)
    (h : ∀ k, k ∈ dictKeys s.plugins → k ∉ dictKeys s.plugins_inactive) :
    disjointViolation s = false := by
  unfold disjointViolation
  rw [List.any_eq_false]
  intro k hk
  cases hc : (dictKeys s.plugins_inactive).contains k
  · simp
  · exact absurd (List.mem_of_elem_eq_true hc) (h k hk)

theorem disjointViolation_of_empty (s : RegState) (h : s.plugins = []) :
    disjointViolation s = false := by
  unfold disjointViolation
  rw [h]
  rfl

/-- `unload_plugins` always completes, leaving both plugin maps and the
installed-apps list empty and the discovery list untouched. -/
theorem unloadPlugins_spec (st : RegState) (host : Host) :
    ∃ st2 host2, unloadPlugins st host = .ok (st2, host2) ∧
      st2.plugins = [] ∧ st2.plugins_inactive = [] ∧
      st2.installed_apps = [] ∧ st2.plugin_modules = st.plugin_modules :=
  ⟨_, _, rfl, rfl, rfl, rfl, rfl⟩

/-- One loop iteration started from a registry with cleared maps and
cleared installed-apps: if it finishes the load normally, the resulting
maps are key-disjoint and every recorded installed app path belongs to an
app-mixin plugin of the active map. -/
theorem loadOnce_ok_disjoint (env : Env) (b : Option String) (st : RegState)
    (host : Host) (out : LoadOutcome) (st' : RegState) (host' : Host)
    (h : loadOnce env b st host = .inl out)
    (hr : out.result = .ok (st', host'))
    (hp0 : st.plugins = []) (hi0 : st.plugins_inactive = [])
    (ha0 : st.installed_apps = [])
    (hnd : st.plugin_modules.Nodup)
    (hinj : ∀ m ∈ st.plugin_modules, ∀ m' ∈ st.plugin_modules,
      plugKey m = plugKey m' → m = m') :
    disjointViolation st' = false ∧
    ∀ a ∈ st'.installed_apps, ∃ sp ∈ st'.plugins,
      sp.2.mod.hasApp = true ∧ a = getPluginPath sp.2 := by
  unfold loadOnce at h
  cases hp : loadPass env b st host with
  | ok q =>
    simp only [hp, Sum.inl.injEq] at h
    subst h
    simp only [Except.ok.injEq] at hr
    subst hr
    unfold loadPass initPluginsAll at hp
    cases hi : initPlugins env b st.plugin_modules st host with
    | error e =>
      rw [hi] at hp
      exact Except.noConfusion hp
    | ok p =>
      rw [hi] at hp
      obtain ⟨j1, j2, j3, j4, j5, j6, added, ja1, ja2, ja3⟩ :=
        (activatePlugins_inv env false p.1 p.2).1 st' host' hp
      have hfr := (initPlugins_frames env b st.plugin_modules st host).1
        p.1 p.2 hi
      have hdisj : ∀ k, k ∈ dictKeys p.1.plugins →
          k ∉ dictKeys p.1.plugins_inactive := by
        apply initPlugins_disjoint env b st.plugin_modules st host p.1 p.2 hi
          hnd hinj
        · intro k hk
          rw [hp0] at hk
          simp [dictKeys] at hk
        · intro m hm
          constructor
          · intro hk
            rw [hp0] at hk
            simp [dictKeys] at hk
          · intro hk
            rw [hi0] at hk
            simp [dictKeys] at hk
      constructor
      · apply disjointViolation_eq_false
        rw [j1, j2]
        exact hdisj
      · intro a ha
        have hpi : p.1.installed_apps = [] := by
          rw [hfr.1.2.2.2.1, ha0]
        rw [ja1, hpi] at ha
        simp only [List.nil_append] at ha
        obtain ⟨-, sp, hsp, hha, hpa⟩ := ja3 a ha
        refine ⟨sp, ?_, hha, hpa⟩
        rw [j1]
        exact hsp
  | error e =>
    obtain ⟨path0, stE0, hostE0⟩ := e
    simp only [hp] at h
    cases ha : afterFailure env path0 stE0 hostE0 with
    | ok p2 =>
      simp only [ha] at h
      exact Sum.noConfusion h
    | error e2 =>
      simp only [ha, Sum.inl.injEq] at h
      subst h
      exact Except.noConfusion hr

/-- The loop invariant behind the amended registry invariant: a load loop
started from a cleared registry that returns normally ends with disjoint
plugin maps and installed-apps entries backed by active app plugins. -/
theorem loadLoop_ok_disjoint (env : Env) :
    ∀ c (b : Option String) (st : RegState) (host : Host) st' host',
      (loadLoop env c b st host).result = .ok (st', host') →
      st.plugins = [] → st.plugins_inactive = [] → st.installed_apps = [] →
      st.plugin_modules.Nodup →
      (∀ m ∈ st.plugin_modules, ∀ m' ∈ st.plugin_modules,
        plugKey m = plugKey m' → m = m') →
      disjointViolation st' = false ∧
      ∀ a ∈ st'.installed_apps, ∃ sp ∈ st'.plugins,
        sp.2.mod.hasApp = true ∧ a = getPluginPath sp.2 := by
  intro c
  induction c using Nat.strong_induction_on with
  | _ c ih =>
    match c with
    | 0 =>
      intro b st host st' host' hr hp0 hi0 ha0 hnd hinj
      cases h0 : loadOnce env b st host with
      | inl out =>
        simp only [loadLoop, h0] at hr
        exact loadOnce_ok_disjoint env b st host out st' host' h0 hr
          hp0 hi0 ha0 hnd hinj
      | inr p =>
        simp only [loadLoop, h0, Except.ok.injEq, Prod.mk.injEq] at hr
        obtain ⟨c1, c2, c3, c4, c5⟩ := loadOnce_inr_spec env b st host p h0
        obtain ⟨h1, h2⟩ := hr
        subst h1
        refine ⟨disjointViolation_of_empty _ c1, ?_⟩
        intro a haa
        rw [c3] at haa
        simp at haa
    | 1 =>
      intro b st host st' host' hr hp0 hi0 ha0 hnd hinj
      cases h0 : loadOnce env b st host with
      | inl out =>
        simp only [loadLoop, h0] at hr
        exact loadOnce_ok_disjoint env b st host out st' host' h0 hr
          hp0 hi0 ha0 hnd hinj
      | inr p =>
        simp only [loadLoop, h0, Except.ok.injEq, Prod.mk.injEq] at hr
        obtain ⟨c1, c2, c3, c4, c5⟩ := loadOnce_inr_spec env b st host p h0
        obtain ⟨h1, h2⟩ := hr
        subst h1
        refine ⟨disjointViolation_of_empty _ c1, ?_⟩
        intro a haa
        rw [c3] at haa
        simp at haa
    | (k + 2) =>
      intro b st host st' host' hr hp0 hi0 ha0 hnd hinj
      cases h0 : loadOnce env b st host with
      | inl out =>
        simp only [loadLoop, h0] at hr
        exact loadOnce_ok_disjoint env b st host out st' host' h0 hr
          hp0 hi0 ha0 hnd hinj
      | inr p =>
        simp only [loadLoop, h0] at hr
        obtain ⟨c1, c2, c3, c4, c5⟩ := loadOnce_inr_spec env b st host p h0
        exact ih (k + 1) (by omega) (some p.1) p.2.1 p.2.2 st' host' hr
          c1 c2 c3 (by rw [c4]; exact hnd) (by rw [c4]; exact hinj)

/-- `load_plugins` from a cleared registry: a normal return has disjoint
plugin maps and installed apps backed by the active map. -/
theorem loadPlugins_ok_disjoint (env : Env) (st : RegState) (host : Host)
    (st' : RegState) (h' : Host)
    (h : (loadPlugins env st host).result = .ok (st', h'))
    (hp0 : st.plugins = []) (hi0 : st.plugins_inactive = [])
    (ha0 : st.installed_apps = [])
    (hnd : st.plugin_modules.Nodup)
    (hinj : ∀ m ∈ st.plugin_modules, ∀ m' ∈ st.plugin_modules,
      plugKey m = plugKey m' → m = m') :
    disjointViolation st' = false ∧
    ∀ a ∈ st'.installed_apps, ∃ sp ∈ st'.plugins,
      sp.2.mod.hasApp = true ∧ a = getPluginPath sp.2 := by
  simp only [loadPlugins] at h
  cases hres : (loadLoop env env.pluginRetry none st
      (if host.maintenance then host
       else { host with maintenance := true })).result with
  | ok p =>
    simp only [hres, Except.ok.injEq, Prod.mk.injEq] at h
    obtain ⟨h1, -⟩ := h
    subst h1
    exact loadLoop_ok_disjoint env env.pluginRetry none st
      (if host.maintenance then host else { host with maintenance := true })
      p.1 p.2 (by rw [hres]) hp0 hi0 ha0 hnd hinj
  | error e =>
    simp only [hres] at h
    exact Except.noConfusion h

/-! ## Claims -/

/-- C4: for every registry state in which `is_loading` is true, calling
`reload_plugins` is a no-op: it returns without raising and leaves every
registry field and all host state unchanged. -/
theorem claim_C4_reload_noop (env : Env) (st : RegState) (host : Host)
    (h : st.is_loading = true) :
    reloadPlugins env st host = .ok (st, host) := by
  simp [reloadPlugins, h]

theorem claim_C4_witness :
    ({ initialRegState with is_loading := true } : RegState).is_loading = true ∧
    reloadPlugins baseEnv { initialRegState with is_loading := true } baseHost =
      .ok ({ initialRegState with is_loading := true }, baseHost) :=
  ⟨rfl, claim_C4_reload_noop baseEnv
    { initialRegState with is_loading := true } baseHost rfl⟩

/-- C10: when `PLUGIN_TESTING` is set, quarantining a blocked plugin in
`_init_plugins` leaves its persisted config unmodified — the host (and in
particular its config store) is returned unchanged, no `active = False` is
saved — and the plugin is only added to the in-memory inactive map, with
its stored config as it was. -/
theorem claim_C10_testing_no_persist (env : Env) (d : String)
    (p : PluginModule) (st : RegState) (host : Host) (cfg : PluginConfig)
    (hT : env.pluginTesting = true)
    (hm : blockedMatches d p = true)
    (hc : findConfig (plugKey p) p.pluginName host.configStore = some cfg) :
    initOne env (some d) p st host =
      .ok ({ st with plugins_inactive :=
        (dictInsert (plugKey p) (some cfg) st.plugins_inactive) }, host) := by
  simp [initOne, getOrCreate, hc, hT, hm]

theorem claim_C10_witness :
    blockedMatches (errorPath modFlaky) modFlaky = true ∧
    initOne { baseEnv with pluginTesting := true } (some (errorPath modFlaky))
      modFlaky initialRegState hostGF =
      .ok ({ initialRegState with plugins_inactive :=
        (dictInsert (plugKey modFlaky) (some (cfgOf modFlaky true))
          initialRegState.plugins_inactive) }, hostGF) :=
  ⟨by decide, claim_C10_testing_no_persist _ _ _ _ _ _ rfl (by decide) (by decide)⟩

/-- C8 (counterexample): at a registry with one installed plugin app, the
deactivation pass neither starts with the URL teardown nor ever performs a
scheduled-task-removal step — refuting the claimed order "URL exposure first,
…, then scheduled-task removal, then settings removal". -/
theorem claim_C8_cex :
    ¬ ((deactivateTrace stDeact).head? = some DeactEvent.updateUrls ∧
       DeactEvent.removeScheduledTasks ∈ deactivateTrace stDeact) := by
  decide

/-- C8 (amended): a deactivation pass performs, in order: per installed app
path the admin-unregistration and model-registry removal, then the
installed-list cleanup, the `INTEGRATION_APPS_LOADED` reset, the forced app
repopulation, and the URL rebuild last within the app step; then the
schedule step, whose body is `pass` and removes nothing (no
scheduled-task-removal step ever occurs); then the settings teardown. -/
theorem claim_C8_order (st : RegState) :
    deactivateTrace st =
      (st.installed_apps.flatMap
        (fun p => [DeactEvent.unregisterAdmin (appNameOf p), DeactEvent.removeModels p]))
      ++ [DeactEvent.cleanInstalledApps, DeactEvent.resetAppsFlag,
          DeactEvent.reloadApps, DeactEvent.updateUrls, DeactEvent.clearSettings] ∧
    DeactEvent.removeScheduledTasks ∉ deactivateTrace st := by
  constructor
  · simp [deactivateTrace, deactivateAppTrace, deactivateScheduleTrace,
      deactivateSettingsTrace]
  · simp [deactivateTrace, deactivateAppTrace, deactivateScheduleTrace,
      deactivateSettingsTrace]

/-- C3 (counterexample): with `PLUGIN_RETRY = 1` and one plugin whose
instantiation always raises, the retry bound is exceeded; the load returns
without raising, but both plugin maps are left empty — the remaining
plugins (the healthy `modGood` included) are recorded in neither map, in
particular not in the inactive map. -/
theorem claim_C3_cex :
    (loadPlugins baseEnv stGF hostGF).exhausted = true ∧
    (okState (loadPlugins baseEnv stGF hostGF)).map RegState.plugins =
      some [] ∧
    (okState (loadPlugins baseEnv stGF hostGF)).map RegState.plugins_inactive =
      some [] := by
  refine ⟨by decide, by decide, by decide⟩

/-- C3 (amended): whenever the bounded retry count of `load_plugins` is
exceeded, loading aborts without raising to the caller, but the registry's
maps are left cleared by the preceding `_clean_registry`: the remaining
plugins end up in neither map — the inactive map is empty, not a record of
the remaining plugins. -/
theorem claim_C3_exhausted (env : Env) (st : RegState) (host : Host)
    (hx : (loadPlugins env st host).exhausted = true) :
    ∃ st' host', (loadPlugins env st host).result = .ok (st', host') ∧
      st'.plugins = [] ∧ st'.plugins_inactive = [] :=
  loadPlugins_exhausted_spec env st host hx

theorem claim_C3_witness :
    (loadPlugins baseEnv stGF hostGF).exhausted = true ∧
    ∃ st' host', (loadPlugins baseEnv stGF hostGF).result = .ok (st', host') ∧
      st'.plugins = [] ∧ st'.plugins_inactive = [] :=
  ⟨by decide, claim_C3_exhausted baseEnv stGF hostGF (by decide)⟩

/-- C5 (counterexample): `load_plugins` does not set `is_loading` on entry:
starting a load with the flag false, the flag sampled at loop entry, after
`_init_plugins` and after `_activate_plugins` is false each time, refuting
"sets is_loading to true on entry, and is_loading remains true throughout
the entire load sequence". -/
theorem claim_C5_cex :
    stGoodOnly.is_loading = false ∧
    loadObservedLoading baseEnv stGoodOnly hostGood = [false, false, false] := by
  refine ⟨rfl, by decide⟩

/-- C5 (amended): `load_plugins` neither checks nor sets `is_loading`: the
flag observed at loop entry is exactly the caller's value, and since the
flag is toggled only inside `_reload_apps` (set for the app repopulation,
cleared after it), a load that returns normally leaves `is_loading` either
unchanged or false. -/
theorem claim_C5_loading (env : Env) (st : RegState) (host : Host) :
    (loadObservedLoading env st host).head? = some st.is_loading ∧
    (∀ st' host', (loadPlugins env st host).result = .ok (st', host') →
      st'.is_loading = st.is_loading ∨ st'.is_loading = false) := by
  constructor
  · cases h1 : initPluginsAll env none st host with
    | error e => simp [loadObservedLoading, h1]
    | ok p =>
      cases h2 : activatePlugins env false p.1 p.2 with
      | error e2 => simp [loadObservedLoading, h1, h2]
      | ok p2 => simp [loadObservedLoading, h1, h2]
  · intro st' host' h
    exact (loadPlugins_ok_inv env st host st' host' h).2

theorem claim_C5_witness :
    (loadObservedLoading baseEnv stGoodOnly hostGood).head? = some false ∧
    (stGoodRes.is_loading = stGoodOnly.is_loading ∨ stGoodRes.is_loading = false) :=
  ⟨(claim_C5_loading baseEnv stGoodOnly hostGood).1,
   (claim_C5_loading baseEnv stGoodOnly hostGood).2 stGoodRes hostGoodRes rfl⟩

/-- C7: after a schedule-activation pass with scheduling enabled, every
scheduled task whose name starts with the plugin-task prefix `plugin.` but
is not in the freshly registered task-name set has been deleted from the
scheduler, and every freshly registered name remains. -/
theorem claim_C7_reconciliation (env : Env) (st : RegState) (host : Host)
    (hg : (env.pluginTesting || env.enablePluginsSchedule) = true) :
    (∀ t, isPrefixOfList "plugin.".data t.data = true →
      t ∉ (scheduleRegistration env st host).1 →
      t ∉ (activateSchedule env st host).schedules) ∧
    (∀ k ∈ (scheduleRegistration env st host).1,
      k ∈ (activateSchedule env st host).schedules) := by
  constructor
  · intro t hpre hnot hmem
    simp only [activateSchedule] at hmem
    rw [List.mem_filter] at hmem
    obtain ⟨-, hcond⟩ := hmem
    rw [istartswith_mono hpre] at hcond
    simp only [Bool.not_true, Bool.false_or] at hcond
    exact hnot (by simpa using hcond)
  · intro k hk
    simp only [activateSchedule]
    rw [List.mem_filter]
    refine ⟨?_, ?_⟩
    · unfold scheduleRegistration at hk ⊢
      rw [if_pos hg] at hk ⊢
      exact schedFold_keys_sub st.plugins ([], host) (by simp) k hk
    · simp only [Bool.or_eq_true]
      exact Or.inr (by simpa using hk)

theorem claim_C7_witness :
    "plugin.sched.beta" ∉ (activateSchedule envSched stSched hostSched).schedules ∧
    "plugin.sched.alpha" ∈ (activateSchedule envSched stSched hostSched).schedules := by
  have h := claim_C7_reconciliation envSched stSched hostSched (by decide)
  exact ⟨h.1 "plugin.sched.beta" (by decide) (by decide),
    h.2 "plugin.sched.alpha" (by decide)⟩

/-- C6 (counterexample): a `PLUGIN_DIRS` source whose import fails is not
contained: `collect_plugins` raises the import error, and the healthy
source configured after it contributes nothing — refuting "no single
failing source aborts collection of the rest". -/
theorem claim_C6_cex :
    collectPlugins envDirBad initialRegState = .error "ext.badsrc" := rfl

/-- C6 (amended): discovery containment holds for the package entry points
only: when every filesystem source imports, a failing entry point is
recorded in the errors log under `discovery` while all other sources still
contribute their plugins; a failing filesystem source, however, raises out
of `collect_plugins` (the first failing one names the error), aborting the
rest of the collection. -/
theorem claim_C6_containment (env : Env) (st : RegState)
    (hT : env.pluginTesting = false) :
    ((∀ d ∈ env.pluginDirs, d.importOk = true) →
      ∃ st', collectPlugins env st = .ok st' ∧
        (∀ e ∈ env.entryPoints, e.loadOk = false →
          (e.epName, "discovery") ∈ st'.errors) ∧
        (∀ e ∈ env.entryPoints, e.loadOk = true →
          { e.plugin with isPackage := true } ∈ st'.plugin_modules) ∧
        (∀ d ∈ env.pluginDirs, ∀ m ∈ d.found, m ∈ st'.plugin_modules)) ∧
    (∀ pre dbad rest, env.pluginDirs = pre ++ dbad :: rest →
      (∀ d ∈ pre, d.importOk = true) → dbad.importOk = false →
      collectPlugins env st = .error dbad.modName) := by
  constructor
  · intro hok
    obtain ⟨mods, h1, h2, h3⟩ := collectDirs_ok env.pluginDirs hok []
    obtain ⟨c1, c2, c3, c4⟩ := collectEntries_spec env.entryPoints mods st.errors
    refine ⟨{ st with plugin_modules := (collectEntries env.entryPoints mods st.errors).1, errors := (collectEntries env.entryPoints mods st.errors).2 }, ?_, ?_, ?_, ?_⟩
    · simp [collectPlugins, h1, hT]
    · intro e he hl
      exact c4 e he hl
    · intro e he hl
      exact c2 e he hl
    · intro d hd m hm
      exact c1 m (h3 d hd m hm)
  · intro pre dbad rest hdirs hok hbad
    simp only [collectPlugins, hdirs, collectDirs_fail pre dbad rest hok hbad []]

theorem claim_C6_witness :
    (∃ st', collectPlugins envEntryMix initialRegState = .ok st' ∧
      ("epbad", "discovery") ∈ st'.errors ∧
      { modGood with isPackage := true } ∈ st'.plugin_modules ∧
      modGood ∈ st'.plugin_modules) ∧
    collectPlugins envDirBad initialRegState = .error dirBad.modName := by
  constructor
  · obtain ⟨st', h1, h2, h3, h4⟩ :=
      (claim_C6_containment envEntryMix initialRegState rfl).1 (by decide)
    exact ⟨st', h1, h2 ⟨"epbad", false, modFlaky⟩ (by decide) rfl,
      h3 ⟨"epgood", true, modGood⟩ (by decide) rfl,
      h4 dirGood (by decide) modGood (by decide)⟩
  · exact (claim_C6_containment envDirBad initialRegState rfl).2
      [] dirBad [dirGood] rfl (by simp) rfl

/-- C1: quarantine convergence — out of the discovered plugins exactly one
(`f`) raises an `IntegrationPluginError`, at instantiation or (with the app
mixin enabled) during activation; with production settings, slug-distinct
plugins, enabled persisted configs, a retry available, and a fresh active
map, `load_plugins` returns normally with `f`'s slug recorded in the
inactive map, `f`'s persisted config saved as `active = False`, and every
other plugin's slug in the active map — for every discovery order
(arbitrary `pre`/`post` split). -/
theorem claim_C1_quarantine (env : Env) (st : RegState) (host : Host)
    (f : PluginModule) (pre post : List PluginModule)
    (hsplit : st.plugin_modules = pre ++ f :: post)
    (hclean : ∀ m ∈ st.plugin_modules, m ≠ f → cleanMod m)
    (hpre : f ∉ pre) (hpost : f ∉ post)
    (hfail : f.failsInit = true ∨
      (f.failsInit = false ∧ f.hasApp = true ∧ f.failsActivation = true ∧
        env.enablePluginsApp = true ∧
        getPluginPath (mkInstance f) ∉ host.installedApps))
    (hT : env.pluginTesting = false)
    (hR : 2 ≤ env.pluginRetry)
    (hs : ∀ m ∈ st.plugin_modules,
      findConfig (plugKey m) m.pluginName host.configStore = some (cfgOf m true))
    (hb : ∀ m ∈ st.plugin_modules,
      blockedMatches (errorPath f) m = true → m = f)
    (hinj : ∀ m ∈ st.plugin_modules, plugKey m = plugKey f → m = f)
    (hp0 : st.plugins = []) :
    ∃ st' host', (loadPlugins env st host).result = .ok (st', host') ∧
      plugKey f ∈ dictKeys st'.plugins_inactive ∧
      findConfig (plugKey f) f.pluginName host'.configStore =
        some (cfgOf f false) ∧
      ∀ m ∈ st.plugin_modules, m ≠ f → plugKey m ∈ dictKeys st'.plugins := by
  obtain ⟨st', host', hres, hnotin, himp⟩ :=
    loadPlugins_one_fail_spec env st host f pre post hsplit hclean hpre hpost
      hfail hT hs hb hinj hp0
  obtain ⟨hiz, hcfg, hothers⟩ := himp hR
  exact ⟨st', host', hres, hiz, hcfg, hothers⟩

theorem claim_C1_witness :
    ∃ st' host', (loadPlugins envR2 stGF hostGF).result = .ok (st', host') ∧
      plugKey modFlaky ∈ dictKeys st'.plugins_inactive ∧
      findConfig (plugKey modFlaky) modFlaky.pluginName host'.configStore =
        some (cfgOf modFlaky false) ∧
      ∀ m ∈ stGF.plugin_modules, m ≠ modFlaky →
        plugKey m ∈ dictKeys st'.plugins :=
  claim_C1_quarantine envR2 stGF hostGF modFlaky [modGood] []
    rfl (by decide) (by decide) (by decide) (Or.inl (by decide)) rfl
    (by decide) (by decide) (by decide) (by decide) rfl

/-- C2: retry-bound termination — for a plugin `f` that raises on every
attempt (always at instantiation, or always at app import during
activation), `load_plugins` returns after at most `max PLUGIN_RETRY 1`
failing passes (the loop cannot run forever), and afterwards the registry
is in a completed state with `f` absent from the active map. -/
theorem claim_C2_retry_bound (env : Env) (st : RegState) (host : Host)
    (f : PluginModule) (pre post : List PluginModule)
    (hsplit : st.plugin_modules = pre ++ f :: post)
    (hclean : ∀ m ∈ st.plugin_modules, m ≠ f → cleanMod m)
    (hpre : f ∉ pre) (hpost : f ∉ post)
    (hfail : f.failsInit = true ∨
      (f.failsInit = false ∧ f.hasApp = true ∧ f.failsActivation = true ∧
        env.enablePluginsApp = true ∧
        getPluginPath (mkInstance f) ∉ host.installedApps))
    (hT : env.pluginTesting = false)
    (hs : ∀ m ∈ st.plugin_modules,
      findConfig (plugKey m) m.pluginName host.configStore = some (cfgOf m true))
    (hb : ∀ m ∈ st.plugin_modules,
      blockedMatches (errorPath f) m = true → m = f)
    (hinj : ∀ m ∈ st.plugin_modules, plugKey m = plugKey f → m = f)
    (hp0 : st.plugins = []) :
    (loadPlugins env st host).failures ≤ max env.pluginRetry 1 ∧
    ∃ st' host', (loadPlugins env st host).result = .ok (st', host') ∧
      plugKey f ∉ dictKeys st'.plugins := by
  constructor
  · rw [loadPlugins_failures]
    exact loadLoop_failures_le env env.pluginRetry none st _
  · obtain ⟨st', host', hres, hnotin, -⟩ :=
      loadPlugins_one_fail_spec env st host f pre post hsplit hclean hpre hpost
        hfail hT hs hb hinj hp0
    exact ⟨st', host', hres, hnotin⟩

theorem claim_C2_witness :
    (loadPlugins baseEnv stGF hostGF).failures ≤ max baseEnv.pluginRetry 1 ∧
    ∃ st' host', (loadPlugins baseEnv stGF hostGF).result = .ok (st', host') ∧
      plugKey modFlaky ∉ dictKeys st'.plugins :=
  claim_C2_retry_bound baseEnv stGF hostGF modFlaky [modGood] []
    rfl (by decide) (by decide) (by decide) (Or.inl (by decide)) rfl
    (by decide) (by decide) (by decide) rfl

/-- C9 (counterexample): `load_plugins` does not hold the claimed invariant
after every terminal call — loading again after an admin disabled the
already-loaded plugin's config leaves its slug a key of both maps: the
stale entry survives in the active map (the loop never clears it on
success) while the disabled config is inserted into the inactive map. -/
theorem claim_C9_cex :
    (okState (loadPlugins envR3 stAlLoaded hostAlDisabled)).map
      disjointViolation = some true := by
  decide

/-- C9 (amended): the disjointness and installed-apps invariants do hold
for `unload_plugins` unconditionally (both maps and the installed list end
empty), and for `load_plugins` and `reload_plugins` whenever the load
starts from cleared maps (as a reload's unload phase guarantees) over
duplicate-free, slug-distinct discovered modules: the two key sets are
disjoint and every recorded installed app path belongs to an app-mixin
plugin of the active map. -/
theorem claim_C9_amended (env : Env) (st : RegState) (host : Host)
    (hnd : st.plugin_modules.Nodup)
    (hinj : ∀ m ∈ st.plugin_modules, ∀ m' ∈ st.plugin_modules,
      plugKey m = plugKey m' → m = m') :
    (∃ st2 host2, unloadPlugins st host = .ok (st2, host2) ∧
      disjointViolation st2 = false ∧ st2.installed_apps = []) ∧
    (st.plugins = [] → st.plugins_inactive = [] → st.installed_apps = [] →
      ∀ st' host', (loadPlugins env st host).result = .ok (st', host') →
        disjointViolation st' = false ∧
        ∀ a ∈ st'.installed_apps, ∃ sp ∈ st'.plugins,
          sp.2.mod.hasApp = true ∧ a = getPluginPath sp.2) ∧
    (st.is_loading = false →
      ∀ st' host', reloadPlugins env st host = .ok (st', host') →
        disjointViolation st' = false ∧
        ∀ a ∈ st'.installed_apps, ∃ sp ∈ st'.plugins,
          sp.2.mod.hasApp = true ∧ a = getPluginPath sp.2) := by
  refine ⟨?_, ?_, ?_⟩
  · obtain ⟨st2, host2, hu, u1, u2, u3, u4⟩ := unloadPlugins_spec st host
    exact ⟨st2, host2, hu, disjointViolation_of_empty _ u1, u3⟩
  · intro hp0 hi0 ha0 st' host' h
    exact loadPlugins_ok_disjoint env st host st' host' h hp0 hi0 ha0 hnd hinj
  · intro hnl st' host' h
    obtain ⟨st1, host2, hu, u1, u2, u3, u4⟩ :=
      unloadPlugins_spec st { host with maintenance := true }
    cases hres : (loadPlugins env st1 host2).result with
    | error e =>
      obtain ⟨q, stE, hostE⟩ := e
      have hre : reloadPlugins env st host =
          .error (q, stE, { hostE with maintenance := host.maintenance }) := by
        unfold reloadPlugins
        rw [if_neg (by simp [hnl] : ¬ st.is_loading = true)]
        simp only [hu, hres]
      rw [hre] at h
      exact Except.noConfusion h
    | ok p =>
      have hre : reloadPlugins env st host =
          .ok (p.1, { p.2 with maintenance := host.maintenance }) := by
        unfold reloadPlugins
        rw [if_neg (by simp [hnl] : ¬ st.is_loading = true)]
        simp only [hu, hres]
      have hd := loadPlugins_ok_disjoint env st1 host2 p.1 p.2
        (by rw [hres]) u1 u2 u3 (by rw [u4]; exact hnd) (by rw [u4]; exact hinj)
      rw [hre] at h
      simp only [Except.ok.injEq, Prod.mk.injEq] at h
      obtain ⟨h1, -⟩ := h
      rw [← h1]
      exact hd

theorem claim_C9_witness :
    (∃ st2 host2, unloadPlugins stGoodOnly hostGood = .ok (st2, host2) ∧
      disjointViolation st2 = false ∧ st2.installed_apps = []) ∧
    disjointViolation stGoodRes = false := by
  have h := claim_C9_amended baseEnv stGoodOnly hostGood (by decide) (by decide)
  exact ⟨h.1, (h.2.1 rfl rfl rfl stGoodRes hostGoodRes rfl).1⟩

end InvenTreePlugin
